import Mathlib

/-!
Verification development for the Auto-Report normalization-and-statistics
pipeline (`src/data_pipeline`).  The pandas DataFrames of the source are
shallowly embedded as column-major tables of cells; floats are modelled as
rationals, `NaN` as a dedicated missing cell, and pandas' NaN-skipping
aggregations as `filterMap`-based aggregations.  Python's stable `sorted`
is modelled by `List.insertionSort` with a reflexive total relation (both
are stable, hence agree).  Stateful pandas code (in-place column
assignment) is modelled by explicit state passing: functions that mutate
their input table return the post-call table alongside their result.
-/

namespace AutoReport

attribute [local semireducible] Rat.mul Rat.add Rat.sub Rat.inv Rat.ofScientific

/-- Single quote character, used to build Python-style string renderings. -/
def sq : Char := Char.ofNat 39

/-- A cell of a tabular value: string, numeric (floats as rationals),
boolean, or missing (pandas `NaN`/`NaT`). -/
inductive Cell where
  | s (v : String)
  | n (v : Rat)
  | b (v : Bool)
  | na
deriving DecidableEq

/-- A pandas `DataFrame`, modelled column-major as an ordered association
list from column name to the list of cells of that column. -/
structure Table where
  cols : List (String × List Cell)
deriving DecidableEq

namespace Table

/-- Column lookup (`df[name]`), first matching column. -/
def getCol (t : Table) (name : String) : Option (List Cell) :=
  (t.cols.find? (fun p => p.1 == name)).map (·.2)

/-- Column lookup with `[]` default. -/
def colD (t : Table) (name : String) : List Cell :=
  (t.getCol name).getD []

/-- Membership test `name in df.columns`. -/
def hasCol (t : Table) (name : String) : Bool :=
  t.cols.any (fun p => p.1 == name)

/-- Row count (`len(df)`): length of the first column (all columns of a
pandas frame share one index, hence one length). -/
def nRows (t : Table) : Nat :=
  match t.cols with
  | [] => 0
  | c :: _ => c.2.length

/-- Pandas `df.empty`: true when either axis is empty. -/
def isEmpty (t : Table) : Bool :=
  t.cols.isEmpty || t.nRows == 0

/-- Column assignment `df[name] = vals`: replaces the first column of that
name in place, else appends a new column at the end. -/
def setCol (t : Table) (name : String) (vals : List Cell) : Table :=
  ⟨go t.cols⟩
where
  go : List (String × List Cell) → List (String × List Cell)
    | [] => [(name, vals)]
    | (m, w) :: rest => if m == name then (m, vals) :: rest else (m, w) :: go rest

/-- Broadcast scalar assignment `df[name] = c`. -/
def setColScalar (t : Table) (name : String) (c : Cell) : Table :=
  t.setCol name (List.replicate t.nRows c)

/-- Column removal (`df.drop(name, axis=1)`). -/
def dropCol (t : Table) (name : String) : Table :=
  ⟨t.cols.filter (fun p => p.1 != name)⟩

/-- Apply `f` to the cells of column `name` when that column exists. -/
def mapCol (t : Table) (name : String) (f : Cell → Cell) : Table :=
  if t.hasCol name then t.setCol name ((t.colD name).map f) else t

end Table

/-- Keep the elements of `l` whose position carries `true` in `mask`
(a pandas boolean-mask row filter applied to one column). -/
def maskFilter (mask : List Bool) (l : List α) : List α :=
  (List.zip mask l).filterMap (fun p => if p.1 then some p.2 else none)

namespace Table

/-- Boolean-mask row filter `df[mask]`, applied to every column. -/
def filterMask (t : Table) (mask : List Bool) : Table :=
  ⟨t.cols.map (fun p => (p.1, maskFilter mask p.2))⟩

/-- Row `i` of the table as an association list (`df.iterrows()` row). -/
def row (t : Table) (i : Nat) : List (String × Cell) :=
  t.cols.map (fun p => (p.1, p.2.getD i Cell.na))

/-- All rows of the table in index order. -/
def rowsL (t : Table) : List (List (String × Cell)) :=
  (List.range t.nRows).map t.row

end Table

/-- Field lookup in an `iterrows` row / resolved column mapping. -/
def rowGet (r : List (String × Cell)) (name : String) : Option Cell :=
  (r.find? (fun p => p.1 == name)).map (·.2)

/-- Python `row.get(name, default)`. -/
def rowGetD (r : List (String × Cell)) (name : String) (d : Cell) : Cell :=
  (rowGet r name).getD d

/-- Lookup in a resolved field-to-column mapping (a Python dict built in
insertion order). -/
def lookupF (m : List (String × String)) (field : String) : Option String :=
  (m.find? (fun p => p.1 == field)).map (·.2)

namespace Cell

/-- Numeric view of a cell.  Booleans are numeric for numpy (`True = 1`);
strings and missing values are not numbers. -/
def asNum : Cell → Option Rat
  | .n q => some q
  | .b v => some (if v then 1 else 0)
  | _ => none

/-- Numeric value of a cell with default `0`. -/
def num (c : Cell) : Rat := (c.asNum).getD 0

/-- Python `str(x)` as used by `astype(str)`.  Floats are rendered by their
numerator when integral (a simplified float `repr`; no claim inspects the
rendering of a non-integral number). -/
def pyStr : Cell → String
  | .s v => v
  | .n q => if q.den == 1 then toString q.num else toString q
  | .b v => if v then "True" else "False"
  | .na => "nan"

/-- Python truthiness `bool(x)` as used by `astype(bool)`; note
`bool(nan) = True`. -/
def pyBool : Cell → Bool
  | .s v => v ≠ ""
  | .n q => q ≠ 0
  | .b v => v
  | .na => true

end Cell

/-- String view of a cell, for contexts where the source calls `str`
methods on the value (claims assume string-typed text columns; Python
would raise on other types). -/
def strD : Cell → String
  | .s v => v
  | _ => ""

/-- NaN-skipping numeric extraction of a column, the basis of pandas
aggregations (`sum`, `mean`, `min`, `max` all skip `NaN`). -/
def nums (l : List Cell) : List Rat := l.filterMap Cell.asNum

/-- Pandas `Series.sum()` (NaN-skipping, `0` on empty). -/
def sumN (l : List Cell) : Rat := (nums l).sum

/-- Pandas `Series.mean()` (NaN-skipping; the `NaN` mean of an empty
column is represented by `0`, Lean's value of `x / 0`). -/
def meanN (l : List Cell) : Rat :=
  (nums l).sum / ((nums l).length : Rat)

/-- Minimum of a rational list, `0` on empty. -/
def listMinD : List Rat → Rat
  | [] => 0
  | x :: xs => xs.foldl min x

/-- Maximum of a rational list, `0` on empty. -/
def listMaxD : List Rat → Rat
  | [] => 0
  | x :: xs => xs.foldl max x

/-- Pandas `Series.min()` (NaN-skipping; `NaN` on empty modelled as `0`). -/
def minN (l : List Cell) : Rat := listMinD (nums l)

/-- Pandas `Series.max()` (NaN-skipping; `NaN` on empty modelled as `0`). -/
def maxN (l : List Cell) : Rat := listMaxD (nums l)

/-- Median of a rational list, with pandas' linear interpolation: middle
element for odd length, mean of the two middle elements for even. -/
def medianR (l : List Rat) : Rat :=
  let s := l.insertionSort (· ≤ ·)
  let n := s.length
  if n == 0 then 0
  else if n % 2 == 1 then s.getD (n / 2) 0
  else (s.getD (n / 2 - 1) 0 + s.getD (n / 2) 0) / 2

/-- Pandas `Series.median()` (NaN-skipping). -/
def medianN (l : List Cell) : Rat := medianR (nums l)

/-- Python `int(x)` / numpy `astype(int)`: truncation toward zero. -/
def truncInt (q : Rat) : Int := q.num.tdiv q.den

/-- First-occurrence deduplication, as numpy/pandas `unique` and Python
dict/`Counter` key order. -/
def dedupF [DecidableEq α] : List α → List α :=
  go []
where
  go (seen : List α) : List α → List α
    | [] => []
    | x :: xs => if x ∈ seen then go seen xs else x :: go (x :: seen) xs

/-- Lowercasing (ASCII, which covers every keyword dictionary of the
source). -/
def lowerStr (s : String) : String := String.mk (s.toList.map Char.toLower)

/-- Contiguous-sublist occurrence test. -/
def occursIn [BEq α] (needle : List α) : List α → Bool
  | [] => needle.isEmpty
  | h :: t => List.isPrefixOf needle (h :: t) || occursIn needle t

/-- Python `needle in hay` substring test. -/
def containsSub (hay needle : String) : Bool :=
  occursIn needle.toList hay.toList

/-- Digit run to number. -/
def digitsVal (ds : List Char) : Nat :=
  ds.foldl (fun a c => a * 10 + (c.toNat - 48)) 0

/-- Numeric string parsing as used by `pd.to_numeric` / Python `float`:
optional sign, decimal digits with optional fractional part.  (Exponents
are not modelled; no test input uses them.) -/
def parseRat (s : String) : Option Rat :=
  let cs := s.trim.toList
  let signed : Rat × List Char :=
    match cs with
    | '-' :: r => (-1, r)
    | '+' :: r => (1, r)
    | _ => (1, cs)
  let sign := signed.1
  let body := signed.2
  let ip := body.takeWhile Char.isDigit
  let rest := body.dropWhile Char.isDigit
  match rest with
  | [] => if ip.isEmpty then none else some (sign * (digitsVal ip : Rat))
  | '.' :: fr =>
    let fp := fr.takeWhile Char.isDigit
    if !(fr.dropWhile Char.isDigit).isEmpty then none
    else if ip.isEmpty && fp.isEmpty then none
    else some (sign * ((digitsVal ip : Rat) + (digitsVal fp : Rat) / ((10 : Rat) ^ fp.length)))
  | _ => none

/-- `pd.to_numeric(col, errors="coerce")` on one cell. -/
def toNumeric (c : Cell) : Cell :=
  match c with
  | .n q => .n q
  | .b v => .n (if v then 1 else 0)
  | .na => .na
  | .s v => match parseRat v with
    | some q => .n q
    | none => .na

/-- Strip `$` and `,` (the `str.replace("[$,]", "")` step of price
cleaning). -/
def stripDollarComma (s : String) : String :=
  String.mk (s.toList.filter (fun c => c ≠ '$' && c ≠ ','))

/-- The composite `astype(str).str.replace("[$,]", "").pipe(to_numeric)`
price parsing: numbers round-trip through their string form, `NaN` stays
missing (its string form `"nan"` does not parse), booleans render as
`"True"`/`"False"` which do not parse. -/
def parsePrice (c : Cell) : Cell :=
  match c with
  | .n q => .n q
  | .s v =>
    match parseRat (stripDollarComma v) with
    | some q => .n q
    | none => .na
  | _ => .na

/-- The composite `astype(str).str.extract("(\\d+\\.?\\d*)").pipe(to_numeric)`
weight parsing: first unsigned decimal run of the string form. -/
def parseWeight (c : Cell) : Cell :=
  match c with
  | .n q => .n |q|
  | .s v =>
    let cs := v.toList.dropWhile (fun ch => !ch.isDigit)
    if cs.isEmpty then .na
    else
      let ip := cs.takeWhile Char.isDigit
      let rest := cs.dropWhile Char.isDigit
      match rest with
      | '.' :: fr =>
        let fp := fr.takeWhile Char.isDigit
        .n ((digitsVal ip : Rat) + (digitsVal fp : Rat) / ((10 : Rat) ^ fp.length))
      | _ => .n (digitsVal ip : Rat)
  | _ => .na

/-- Days since the civil epoch 1970-01-01 (standard civil-calendar
conversion), used to model parsed timestamps as day numbers. -/
def daysFromCivil (y m d : Int) : Int :=
  let y2 := if m ≤ 2 then y - 1 else y
  let era := Int.fdiv (if y2 ≥ 0 then y2 else y2 - 399) 400
  let yoe := y2 - era * 400
  let mp := Int.fdiv (153 * (m + (if m > 2 then -3 else 9)) + 2) 5
  let doy := mp + d - 1
  let doe := yoe * 365 + Int.fdiv yoe 4 - Int.fdiv yoe 100 + doy
  era * 146097 + doe - 719468

/-- `pd.to_datetime(x, errors="coerce")` on one cell, modelled for
ISO `YYYY-MM-DD` strings (the resulting timestamp is its day number);
everything else coerces to `NaT`. -/
def parseDate (c : Cell) : Cell :=
  match c with
  | .s v =>
    match v.trim.toList with
    | [y1, y2, y3, y4, '-', m1, m2, '-', d1, d2] =>
      if [y1, y2, y3, y4, m1, m2, d1, d2].all Char.isDigit then
        .n ((daysFromCivil (digitsVal [y1, y2, y3, y4]) (digitsVal [m1, m2])
          (digitsVal [d1, d2]) : Int) : Rat)
      else .na
    | _ => .na
  | _ => .na

/-- Python `repr` of a list of strings, as interpolated by an f-string. -/
def pyStrList (names : List String) : String :=
  "[" ++ String.intercalate ", "
    (names.map (fun nm => String.singleton sq ++ nm ++ String.singleton sq)) ++ "]"

/-! ## Schema resolution (`detect_*_columns`) -/

/-- The `{col.lower(): col for col in df.columns}` lookup: maps a
lowercased key to the matching actual column; a later column overwrites an
earlier one with the same lowercase form, as in a dict comprehension. -/
def lowLookup (t : Table) (key : String) : Option String :=
  (t.cols.map Prod.fst).foldl
    (fun acc c => if lowerStr c == key then some c else acc) none

/-- Case-insensitive alias resolution shared by the Amazon/TikTok listing
and Amazon review detectors: for each logical field take the first alias
present in the (lowercased) columns. -/
def detectColsCI (patterns : List (String × List String)) (t : Table) :
    List (String × String) :=
  patterns.filterMap (fun p => (p.2.findSome? (lowLookup t)).map (fun c => (p.1, c)))

/-- Column alias patterns of `detect_amazon_columns`. -/
def amazonSalesPatterns : List (String × List String) :=
  [("product_id", ["asin", "product_id", "product id", "id"]),
   ("title", ["title", "product_title", "product name", "name"]),
   ("price", ["price", "unit_price", "list_price"]),
   ("sales", ["sales", "units_sold", "quantity", "qty"]),
   ("revenue", ["revenue", "total_revenue", "sales_amount"]),
   ("rating", ["rating", "avg_rating", "average_rating", "star_rating"]),
   ("reviews", ["reviews", "review_count", "number_of_reviews"]),
   ("launch_date", ["launch_date", "release_date", "available_date"]),
   ("category", ["category", "product_category", "department"]),
   ("seller", ["seller", "seller_name", "merchant"]),
   ("size", ["size", "product_size", "dimensions"]),
   ("weight", ["weight", "product_weight", "shipping_weight"])]

/-- `detect_amazon_columns`. -/
def detect_amazon_columns (df : Table) : List (String × String) :=
  detectColsCI amazonSalesPatterns df

/-- Column alias patterns of `detect_tiktok_columns`. -/
def tiktokSalesPatterns : List (String × List String) :=
  [("product_id", ["product_id", "product id", "id", "sku"]),
   ("title", ["title", "product_title", "product name", "name", "product_name"]),
   ("price", ["price", "unit_price", "selling_price", "sale_price"]),
   ("sales", ["sales", "units_sold", "quantity_sold", "qty", "sold"]),
   ("revenue", ["revenue", "total_revenue", "gmv", "sales_amount"]),
   ("rating", ["rating", "avg_rating", "average_rating", "score"]),
   ("reviews", ["reviews", "review_count", "number_of_reviews"]),
   ("launch_date", ["launch_date", "created_at", "publish_date"]),
   ("category", ["category", "product_category", "category_name"]),
   ("shop", ["shop", "shop_name", "store", "store_name", "seller"]),
   ("size", ["size", "product_size"]),
   ("weight", ["weight", "product_weight"])]

/-- `detect_tiktok_columns`. -/
def detect_tiktok_columns (df : Table) : List (String × String) :=
  detectColsCI tiktokSalesPatterns df

/-! ## Listing normalizers (`clean_amazon_sales`, `clean_tiktok_sales`) -/

/-- The Amazon rating clamp
`normalized.loc[normalized["rating"] > 5, "rating"] /= 10`: a single
division by 10 of the values above 5 (`NaN > 5` is false, so `NaN` is
untouched). -/
def amazonRatingAdjust (c : Cell) : Cell :=
  match c with
  | .n q => if 5 < q then .n (q / 10) else .n q
  | c => c

/-- The TikTok-style rating rescale: when the column's (NaN-skipping)
maximum exceeds 5, every value is divided by that maximum and scaled to 5. -/
def rescaleRatingByMax (l : List Cell) : List Cell :=
  let ns := nums l
  if ns.isEmpty then l
  else
    let mx := listMaxD ns
    if 5 < mx then
      l.map (fun c => match c with | .n q => .n (q / mx * 5) | c => c)
    else l

/-- Elementwise product of two numeric columns (`price * sales`); a
missing factor yields a missing product, as NaN propagates. -/
def mulCols (a b : List Cell) : List Cell :=
  (List.zip a b).map (fun p =>
    match p.1.asNum, p.2.asNum with
    | some x, some y => Cell.n (x * y)
    | _, _ => Cell.na)

/-- `fillna(0)` on one cell. -/
def fillZero (c : Cell) : Cell :=
  match c with
  | .na => .n 0
  | c => c

/-- Drop rows in which any existing critical column is missing
(`dropna(subset=existing_critical)`), then fill the numeric defaults:
the shared tail of both listing cleaners. -/
def listingFinalize (t : Table) : Table :=
  let critical := (["product_id", "title"].filter t.hasCol)
  let mask := (List.range t.nRows).map
    (fun i => critical.all (fun c => (t.colD c).getD i Cell.na ≠ Cell.na))
  let t := t.filterMask mask
  let t := t.mapCol "price" fillZero
  let t := t.mapCol "sales" fillZero
  let t := t.mapCol "revenue" fillZero
  let t := t.mapCol "rating" fillZero
  t

/-- `clean_amazon_sales`.  `nowDays` models `datetime.now()` (a day
number), the one ambient input of the source. -/
def clean_amazon_sales (nowDays : Int) (df : Table) : Table :=
  let cm := detect_amazon_columns df
  let src : String → Option (List Cell) := fun f => (lookupF cm f).map (fun c => df.colD c)
  let t : Table := ⟨[]⟩
  let t := match src "product_id" with
    | some col => t.setCol "product_id" (col.map (fun (c : Cell) => Cell.s c.pyStr))
    | none => t.setCol "product_id"
        ((List.range df.nRows).map (fun i => .s ("AMZ_" ++ toString i)))
  let t := match src "title" with
    | some col => t.setCol "title" (col.map (fun (c : Cell) => Cell.s c.pyStr.trim))
    | none => t
  let t := match src "price" with
    | some col => t.setCol "price" (col.map parsePrice)
    | none => t
  let t := match src "sales" with
    | some col => t.setCol "sales" (col.map toNumeric)
    | none => t
  let t := match src "revenue" with
    | some col => t.setCol "revenue" (col.map toNumeric)
    | none =>
      if t.hasCol "price" && t.hasCol "sales" then
        t.setCol "revenue" (mulCols (t.colD "price") (t.colD "sales"))
      else t
  let t := match src "rating" with
    | some col => t.setCol "rating" ((col.map toNumeric).map amazonRatingAdjust)
    | none => t
  let t := match src "reviews" with
    | some col => t.setCol "reviews" (col.map toNumeric)
    | none => t
  let t := match src "launch_date" with
    | some col =>
      let dates := col.map parseDate
      let t := t.setCol "launch_date" dates
      t.setCol "days_since_launch" (dates.map (fun (c : Cell) =>
        match c with
        | .n d => Cell.n ((nowDays : Rat) - d)
        | _ => Cell.na))
    | none => t
  let t := match src "category" with
    | some col => t.setCol "category" (col.map (fun (c : Cell) => Cell.s c.pyStr))
    | none => t
  let t := match src "seller" with
    | some col => t.setCol "seller" (col.map (fun (c : Cell) => Cell.s c.pyStr))
    | none => t
  let t := match src "size" with
    | some col => t.setCol "size" (col.map (fun (c : Cell) => Cell.s c.pyStr))
    | none => t
  let t := match src "weight" with
    | some col => t.setCol "weight" (col.map parseWeight)
    | none => t
  let t := t.setColScalar "platform" (.s "amazon")
  listingFinalize t

/-- `clean_tiktok_sales`. -/
def clean_tiktok_sales (nowDays : Int) (df : Table) : Table :=
  let cm := detect_tiktok_columns df
  let src : String → Option (List Cell) := fun f => (lookupF cm f).map (fun c => df.colD c)
  let t : Table := ⟨[]⟩
  let t := match src "product_id" with
    | some col => t.setCol "product_id" (col.map (fun (c : Cell) => Cell.s c.pyStr))
    | none => t.setCol "product_id"
        ((List.range df.nRows).map (fun i => .s ("TT_" ++ toString i)))
  let t := match src "title" with
    | some col => t.setCol "title" (col.map (fun (c : Cell) => Cell.s c.pyStr.trim))
    | none => t
  let t := match src "price" with
    | some col => t.setCol "price" (col.map parsePrice)
    | none => t
  let t := match src "sales" with
    | some col => t.setCol "sales" (col.map toNumeric)
    | none => t
  let t := match src "revenue" with
    | some col => t.setCol "revenue" (col.map toNumeric)
    | none =>
      if t.hasCol "price" && t.hasCol "sales" then
        t.setCol "revenue" (mulCols (t.colD "price") (t.colD "sales"))
      else t
  let t := match src "rating" with
    | some col => t.setCol "rating" (rescaleRatingByMax (col.map toNumeric))
    | none => t
  let t := match src "reviews" with
    | some col => t.setCol "reviews" (col.map toNumeric)
    | none => t
  let t := match src "launch_date" with
    | some col =>
      let dates := col.map parseDate
      let t := t.setCol "launch_date" dates
      t.setCol "days_since_launch" (dates.map (fun (c : Cell) =>
        match c with
        | .n d => Cell.n ((nowDays : Rat) - d)
        | _ => Cell.na))
    | none => t
  let t := match src "category" with
    | some col => t.setCol "category" (col.map (fun (c : Cell) => Cell.s c.pyStr))
    | none => t
  let t := match src "shop" with
    | some col => t.setCol "shop" (col.map (fun (c : Cell) => Cell.s c.pyStr))
    | none => t
  let t := match src "size" with
    | some col => t.setCol "size" (col.map (fun (c : Cell) => Cell.s c.pyStr))
    | none => t
  let t := match src "weight" with
    | some col => t.setCol "weight" (col.map parseWeight)
    | none => t
  let t := t.setColScalar "platform" (.s "tiktok")
  listingFinalize t

/-- Boolean test that every numeric rating of the canonical `rating`
column lies in `[0, 5]` (the invariant claimed by the specification). -/
def ratingsInRangeB (t : Table) : Bool :=
  (t.colD "rating").all (fun c =>
    match c.asNum with
    | some q => decide (0 ≤ q) && decide (q ≤ 5)
    | none => true)

/-! ## Stable descending sort (Python `sorted(..., reverse=True)`) -/

/-- Weak lexicographic order on rational pairs, the comparison underlying
Python tuple sort keys. -/
def lexPairLe (p q : Rat × Rat) : Prop :=
  p.1 < q.1 ∨ (p.1 = q.1 ∧ p.2 ≤ q.2)

instance instDecLexPairLe (p q : Rat × Rat) : Decidable (lexPairLe p q) := by
  unfold lexPairLe; exact inferInstance

/-- Descending order by a pair-valued key: `keyGe f a b` holds when `a`
sorts no later than `b` under `sorted(key=f, reverse=True)`. -/
def keyGe (f : α → Rat × Rat) (a b : α) : Prop := lexPairLe (f b) (f a)

instance instDecKeyGe (f : α → Rat × Rat) : DecidableRel (keyGe f) := fun _ _ => by
  unfold keyGe; exact inferInstance

instance instTotalKeyGe (f : α → Rat × Rat) : IsTotal α (keyGe f) := by
  constructor
  intro a b
  unfold keyGe lexPairLe
  rcases lt_trichotomy (f a).1 (f b).1 with h | h | h
  · exact Or.inr (Or.inl h)
  · rcases le_total (f a).2 (f b).2 with h2 | h2
    · exact Or.inr (Or.inr ⟨h, h2⟩)
    · exact Or.inl (Or.inr ⟨h.symm, h2⟩)
  · exact Or.inl (Or.inl h)

instance instTransKeyGe (f : α → Rat × Rat) : IsTrans α (keyGe f) := by
  constructor
  intro a b c hab hbc
  unfold keyGe lexPairLe at *
  rcases hab with h1 | ⟨e1, l1⟩
  · rcases hbc with h2 | ⟨e2, _⟩
    · exact Or.inl (h2.trans h1)
    · exact Or.inl (e2 ▸ h1)
  · rcases hbc with h2 | ⟨e2, l2⟩
    · exact Or.inl (e1 ▸ h2)
    · exact Or.inr ⟨e2.trans e1, l2.trans l1⟩

/-- Python `sorted(l, key=f, reverse=True)`: both this and CPython's sort
are stable, so they agree elementwise. -/
def sortByKeyDesc (f : α → Rat × Rat) (l : List α) : List α :=
  l.insertionSort (keyGe f)

/-- Python whitespace (`\s` of the `re` module). -/
def isPySpace (c : Char) : Bool :=
  c = ' ' || c = '\t' || c = '\n' || c = '\r' || c.toNat == 11 || c.toNat == 12

/-! ## StatisticsEngine (`market_statistics.py`) -/

/-- Overview record of `compute_market_overview`. -/
structure MarketOverview where
  totalProducts : Nat
  totalSales : Int
  totalRevenue : Rat
  avgPrice : Rat
  medianPrice : Rat
  avgRating : Rat
  priceMin : Rat
  priceMax : Rat
deriving DecidableEq

/-- `compute_market_overview`. -/
def compute_market_overview (df : Table) : MarketOverview :=
  { totalProducts := df.nRows
    totalSales := if df.hasCol "sales" then truncInt (sumN (df.colD "sales")) else 0
    totalRevenue := if df.hasCol "revenue" then sumN (df.colD "revenue") else 0
    avgPrice := if df.hasCol "price" then meanN (df.colD "price") else 0
    medianPrice := if df.hasCol "price" then medianN (df.colD "price") else 0
    avgRating := if df.hasCol "rating" then meanN (df.colD "rating") else 0
    priceMin := if df.hasCol "price" then minN (df.colD "price") else 0
    priceMax := if df.hasCol "price" then maxN (df.colD "price") else 0 }

/-- Seller-concentration block of `compute_competition_metrics`. -/
structure SellerConc where
  top10SellerShare : Rat
  uniqueSellers : Nat
  avgSalesPerSeller : Rat
deriving DecidableEq

/-- Result record of `compute_competition_metrics`; `none` models the `{}`
returned for an empty or sales-free table. -/
structure CompMetrics where
  top10Share : Rat
  top20Share : Rat
  longTailIndex : Rat
  sellerConc : Option SellerConc
deriving DecidableEq

/-- `compute_competition_metrics`.  The sums of the ten/twenty largest
sales values are order-insensitive among ties, so the unstable
`sort_values` of the source and this model agree on every reported
number. -/
def compute_competition_metrics (df : Table) : Option CompMetrics :=
  if df.isEmpty || !df.hasCol "sales" then none
  else
    let salesCells := df.colD "sales"
    let ns := nums salesCells
    let sortedDesc := ns.insertionSort (fun a b => b ≤ a)
    let total := ns.sum
    let top10 := (sortedDesc.take 10).sum
    let top20 := (sortedDesc.take 20).sum
    let sellerCol : Option String :=
      if df.hasCol "seller" then some "seller"
      else if df.hasCol "shop" then some "shop" else none
    let sconc := sellerCol.map (fun sc =>
      let keys := dedupF ((df.colD sc).filter (fun c => c ≠ Cell.na))
      let groupSums := keys.map (fun k =>
        sumN (maskFilter ((df.colD sc).map (fun c => c == k)) salesCells))
      let topSellers := ((groupSums.insertionSort (fun a b : Rat => b ≤ a)).take 10).sum
      { top10SellerShare := if 0 < total then topSellers / total else 0
        uniqueSellers := keys.length
        avgSalesPerSeller := groupSums.sum / (groupSums.length : Rat) })
    let avgSales := meanN salesCells
    let longTailCount := ns.countP (fun x => decide (x < avgSales))
    some
      { top10Share := if 0 < total then top10 / total else 0
        top20Share := if 0 < total then top20 / total else 0
        longTailIndex := if df.nRows == 0 then 0 else (longTailCount : Rat) / (df.nRows : Rat)
        sellerConc := sconc }

/-- Type-7 (linear-interpolation) quantile of a sorted sample, the
default of `Series.quantile` used by `pd.qcut`. -/
def quantileLin (xs : List Rat) (p : Rat) : Rat :=
  match xs with
  | [] => 0
  | _ =>
    let h : Rat := ((xs.length - 1 : Nat) : Rat) * p
    let i : Nat := h.floor.toNat
    let fr : Rat := h - (h.floor : Rat)
    if fr == 0 then xs.getD i 0
    else xs.getD i 0 + fr * (xs.getD (i + 1) 0 - xs.getD i 0)

/-- The deduplicated quantile edges of `pd.qcut(x, q, duplicates="drop")`.
Quantiles are nondecreasing in `p`, so numpy `unique` (sort + dedup) is
first-occurrence dedup of the nondecreasing edge list. -/
def qcutEdges (ns : List Rat) (q : Nat) : List Rat :=
  let xs := ns.insertionSort (· ≤ ·)
  let raw := (List.range (q + 1)).map (fun j => quantileLin xs ((j : Rat) / (q : Rat)))
  (dedupF raw).insertionSort (· ≤ ·)

/-- Bin index assigned by `pd.cut`/`pd.qcut` via
`searchsorted(edges, v, side="left") - 1` (with the lowest value included
in bin 0): the number of non-leftmost edges strictly below `v`. -/
def bandOfPrice (edges : List Rat) (v : Rat) : Nat :=
  (edges.drop 1).countP (fun e => decide (e < v))

/-- The bin cell stored for one price cell by the `pd.qcut`/`pd.cut`
column assignments: the bin index of a numeric value, `NaN` for `NaN`. -/
def bandCellOf (edges : List Rat) (c : Cell) : Cell :=
  match c.asNum with
  | some v => Cell.n ((bandOfPrice edges v : Nat) : Rat)
  | none => Cell.na

/-- One price band reported by `compute_price_bands`. -/
structure PriceBand where
  band : Nat
  priceMin : Rat
  priceMax : Rat
  productCount : Nat
  totalSales : Int
  totalRevenue : Rat
  avgRating : Rat
deriving DecidableEq

/-- `compute_price_bands`.  The second component is the input table after
the in-place `df["price_band"] = pd.qcut(...)` assignment. -/
def compute_price_bands (df : Table) (numBands : Nat := 5) : List PriceBand × Table :=
  if df.isEmpty || !df.hasCol "price" then ([], df)
  else
    let priceCells := df.colD "price"
    let ns := nums priceCells
    let edges := qcutEdges ns numBands
    let bandCol := priceCells.map (bandCellOf edges)
    let dfM := df.setCol "price_band" bandCol
    let present := (dedupF (ns.map (bandOfPrice edges))).insertionSort (· ≤ ·)
    let bands := present.map (fun bid =>
      let mask := bandCol.map (fun c => c == Cell.n ((bid : Nat) : Rat))
      let bp := nums (maskFilter mask priceCells)
      { band := bid
        priceMin := listMinD bp
        priceMax := listMaxD bp
        productCount := mask.count true
        totalSales := if df.hasCol "sales" then
            truncInt (sumN (maskFilter mask (df.colD "sales"))) else 0
        totalRevenue := if df.hasCol "revenue" then
            sumN (maskFilter mask (df.colD "revenue")) else 0
        avgRating := if df.hasCol "rating" then
            meanN (maskFilter mask (df.colD "rating")) else 0 })
    (bands, dfM)

/-- Rational `linspace lo hi segs` with `segs + 1` points. -/
def linspace (lo hi : Rat) (segs : Nat) : List Rat :=
  (List.range (segs + 1)).map (fun j => lo + (hi - lo) * (j : Rat) / (segs : Rat))

/-- The bin edges of `pd.cut(x, bins=10)`: ten equal-width bins over the
observed range, leftmost edge nudged down by 0.1% so the minimum falls in
bin 0 (with the degenerate constant-range adjustment of pandas). -/
def cutEdges10 (ns : List Rat) : List Rat :=
  let mn := listMinD ns
  let mx := listMaxD ns
  if mn == mx then
    let adjL : Rat := if mn == 0 then 1 / 1000 else |mn| / 1000
    let adjR : Rat := if mx == 0 then 1 / 1000 else |mx| / 1000
    linspace (mn - adjL) (mx + adjR) 10
  else
    match linspace mn mx 10 with
    | [] => []
    | e0 :: rest => (e0 - (mx - mn) / 1000) :: rest

/-- One "sweet spot" bucket of `compute_price_vs_sales_correlation`
(`price_range` reported by its numeric endpoints rather than the
two-decimal string of the source). -/
structure SweetSpot where
  lo : Rat
  hi : Rat
  totalSales : Int
deriving DecidableEq

/-- Result record of `compute_price_vs_sales_correlation`.  The Pearson
coefficient `corr = covNum / sqrt(varPrice * varSales)` is carried by its
exact defining data, and `relationship` is computed from the equivalent
exact comparisons `corr > 0.3  iff  covNum > 0 and covNum^2 > 0.09 *
varPrice * varSales` (similarly for `< -0.3`); a zero variance gives a NaN
coefficient in pandas, and both comparisons correctly come out false. -/
structure PVS where
  covNum : Rat
  varPrice : Rat
  varSales : Rat
  relationship : String
  sweetSpots : List SweetSpot
deriving DecidableEq

/-- `compute_price_vs_sales_correlation`.  The second component is the
input table after the in-place `df["price_bucket"] = pd.cut(...)`
assignment (bucket categories modelled by their bin index).  Grouping by
the categorical bucket column includes all ten categories
(`observed=False`), so empty buckets participate with total 0. -/
def compute_price_vs_sales_correlation (df : Table) : Option PVS × Table :=
  if df.isEmpty || !df.hasCol "price" || !df.hasCol "sales" then (none, df)
  else
    let priceCells := df.colD "price"
    let salesCells := df.colD "sales"
    let pairs := (List.zip priceCells salesCells).filterMap (fun p =>
      match p.1.asNum, p.2.asNum with
      | some a, some b => some (a, b)
      | _, _ => none)
    let m := (pairs.length : Rat)
    let am := (pairs.map Prod.fst).sum / m
    let bm := (pairs.map Prod.snd).sum / m
    let cov := (pairs.map (fun p => (p.1 - am) * (p.2 - bm))).sum
    let vp := (pairs.map (fun p => (p.1 - am) ^ 2)).sum
    let vs := (pairs.map (fun p => (p.2 - bm) ^ 2)).sum
    let rel : String :=
      if 0 < cov ∧ (9 : Rat) / 100 * (vp * vs) < cov ^ 2 then "positive"
      else if cov < 0 ∧ (9 : Rat) / 100 * (vp * vs) < cov ^ 2 then "negative"
      else "weak"
    let ns := nums priceCells
    let edges := cutEdges10 ns
    let bucketCol := priceCells.map (bandCellOf edges)
    let dfM := df.setCol "price_bucket" bucketCol
    let groupSums := (List.range 10).map (fun k =>
      (k, sumN (maskFilter (bucketCol.map (fun c => c == Cell.n ((k : Nat) : Rat))) salesCells)))
    let sweet := (sortByKeyDesc (fun p => (p.2, 0)) groupSums).take 3
    let spots := sweet.map (fun p =>
      { lo := edges.getD p.1 0, hi := edges.getD (p.1 + 1) 0, totalSales := truncInt p.2 })
    (some { covNum := cov, varPrice := vp, varSales := vs,
            relationship := rel, sweetSpots := spots }, dfM)

/-- The category cell assigned by
`pd.cut(rating, bins=[0,2,3,4,5], labels, include_lowest=True)`. -/
def ratingCatCell (c : Cell) : Cell :=
  match c.asNum with
  | some r =>
    if r < 0 then Cell.na
    else if r ≤ 2 then Cell.s "1-2 stars"
    else if r ≤ 3 then Cell.s "2-3 stars"
    else if r ≤ 4 then Cell.s "3-4 stars"
    else if r ≤ 5 then Cell.s "4-5 stars"
    else Cell.na
  | none => Cell.na

/-- One entry of the rating distribution. -/
structure RatingDistEntry where
  category : String
  productCount : Nat
  salesShare : Rat
deriving DecidableEq

/-- Result record of `compute_rating_profile`. -/
structure RatingProfile where
  ratingDistribution : List RatingDistEntry
  avgRating : Rat
  medianRating : Rat
  reviewToSales : Rat
deriving DecidableEq

/-- `compute_rating_profile`.  The second component is the input table
after the in-place `df["rating_category"] = pd.cut(...)` assignment.
The unguarded division by the total of `sales` is modelled by rational
division (`x / 0 = 0` stands in for the float `NaN`/`inf`). -/
def compute_rating_profile (df : Table) : Option RatingProfile × Table :=
  if df.isEmpty || !df.hasCol "rating" then (none, df)
  else
    let ratingCells := df.colD "rating"
    let catCol := ratingCells.map ratingCatCell
    let dfM := df.setCol "rating_category" catCol
    let dist := ["1-2 stars", "2-3 stars", "3-4 stars", "4-5 stars"].filterMap (fun lab =>
      let mask := catCol.map (fun c => c == Cell.s lab)
      let cnt := mask.count true
      if cnt == 0 then none
      else some
        { category := lab
          productCount := cnt
          salesShare := if df.hasCol "sales" then
              sumN (maskFilter mask (df.colD "sales")) / sumN (df.colD "sales")
            else 0 })
    let r2s : Rat :=
      if df.hasCol "reviews" && df.hasCol "sales" then
        let ts := sumN (df.colD "sales")
        if 0 < ts then sumN (df.colD "reviews") / ts else 0
      else 0
    (some { ratingDistribution := dist, avgRating := meanN ratingCells,
            medianRating := medianN ratingCells, reviewToSales := r2s }, dfM)

/-- Age bucket of `pd.cut(days, bins=[0,30,90,180,365,inf])`. -/
def ageCat (d : Rat) : Option Nat :=
  if d ≤ 0 then none
  else if d ≤ 30 then some 0
  else if d ≤ 90 then some 1
  else if d ≤ 180 then some 2
  else if d ≤ 365 then some 3
  else some 4

/-- One entry of the launch-age distribution. -/
structure AgeDistEntry where
  age : String
  productCount : Nat
  totalSales : Int
  avgRating : Rat
deriving DecidableEq

/-- Result record of `compute_launch_profile`. -/
structure LaunchProfile where
  ageDistribution : List AgeDistEntry
  avgDays : Rat
  medianDays : Rat
deriving DecidableEq

/-- `compute_launch_profile` (works on a `.copy()`, hence pure). -/
def compute_launch_profile (df : Table) : Option LaunchProfile :=
  if df.isEmpty || !df.hasCol "days_since_launch" then none
  else
    let validMask := (df.colD "days_since_launch").map (fun c =>
      match c.asNum with
      | some d => decide (0 < d)
      | none => false)
    let v := df.filterMask validMask
    if v.isEmpty then none
    else
      let vdays := v.colD "days_since_launch"
      let catCol := vdays.map (fun c =>
        match c.asNum with
        | some d => ageCat d
        | none => none)
      let dist := [(0, "<1mo"), (1, "1-3mo"), (2, "3-6mo"), (3, "6-12mo"),
                   (4, ">12mo")].filterMap (fun p =>
        let mask := catCol.map (fun oc => oc == some p.1)
        let cnt := mask.count true
        if cnt == 0 then none
        else some
          { age := p.2
            productCount := cnt
            totalSales := if v.hasCol "sales" then
                truncInt (sumN (maskFilter mask (v.colD "sales"))) else 0
            avgRating := if v.hasCol "rating" then
                meanN (maskFilter mask (v.colD "rating")) else 0 })
      some { ageDistribution := dist, avgDays := meanN vdays, medianDays := medianN vdays }

/-- First match of the length regex `(\d+)\s*(inch|in|")` in a lowercased
title: leftmost digit run followed by optional whitespace and a length
marker.  (Starting inside a digit run can never succeed where the full
run failed, so scanning advances one character at a time.) -/
def findLenTag (cs : List Char) : Option Nat :=
  go cs.length cs
where
  go : Nat → List Char → Option Nat
    | 0, _ => none
    | _, [] => none
    | fuel + 1, c :: t =>
      if c.isDigit then
        let ds := (c :: t).takeWhile Char.isDigit
        let rest := ((c :: t).dropWhile Char.isDigit).dropWhile isPySpace
        if List.isPrefixOf "inch".toList rest || List.isPrefixOf "in".toList rest
            || List.isPrefixOf ['"'] rest then
          some (digitsVal ds)
        else go fuel t
      else go fuel t

/-- `extract_features_from_title` (dict insertion order preserved). -/
def extract_features_from_title (title : String) : List (String × Cell) :=
  let low := lowerStr title
  let l1 : List (String × Cell) :=
    if containsSub low "lace" then
      if containsSub low "front" then [("lace_type", Cell.s "lace_front")]
      else if containsSub low "360" then [("lace_type", Cell.s "360_lace")]
      else if containsSub low "closure" then [("lace_type", Cell.s "lace_closure")]
      else [("lace_type", Cell.s "lace")]
    else []
  let l2 := if containsSub low "glueless" then [("glueless", Cell.b true)] else []
  let l3 : List (String × Cell) :=
    if containsSub low "body wave" then [("texture", Cell.s "body_wave")]
    else if containsSub low "straight" then [("texture", Cell.s "straight")]
    else if containsSub low "curly" then [("texture", Cell.s "curly")]
    else if containsSub low "kinky" then [("texture", Cell.s "kinky")]
    else []
  let l4 : List (String × Cell) :=
    match findLenTag low.toList with
    | some k => [("length", Cell.n (k : Rat))]
    | none => []
  let l5 : List (String × Cell) :=
    match ["black", "brown", "blonde", "burgundy", "red", "ombre",
           "highlight"].find? (fun col => containsSub low col) with
    | some col => [("color", Cell.s col)]
    | none => []
  l1 ++ l2 ++ l3 ++ l4 ++ l5

/-- One aggregated feature statistic. -/
structure FeatureStat where
  feature : String
  productCount : Nat
  totalSales : Int
  avgPrice : Rat
  avgRating : Rat
deriving DecidableEq

/-- One element of the intermediate `all_features` list. -/
structure FeatRow where
  ftype : String
  fval : Cell
  sales : Rat
  price : Rat
  rating : Rat
deriving DecidableEq

/-- `row.get(name, 0)` as a number (`NaN` represented by `0`). -/
def numOfRowD (r : List (String × Cell)) (name : String) : Rat :=
  (rowGetD r name (Cell.n 0)).num

/-- `extract_feature_performance`. -/
def extract_feature_performance (df : Table) : List FeatureStat :=
  if df.isEmpty || !df.hasCol "title" then []
  else
    let allFeatures := df.rowsL.flatMap (fun r =>
      (extract_features_from_title (strD (rowGetD r "title" Cell.na))).map (fun p =>
        { ftype := p.1, fval := p.2, sales := numOfRowD r "sales",
          price := numOfRowD r "price", rating := numOfRowD r "rating" : FeatRow }))
    if allFeatures.isEmpty then []
    else
      let stats := (dedupF (allFeatures.map FeatRow.ftype)).flatMap (fun ft =>
        let fd := allFeatures.filter (fun fr => fr.ftype == ft)
        (dedupF (fd.map FeatRow.fval)).map (fun v =>
          let vd := fd.filter (fun fr => fr.fval == v)
          { feature := ft ++ "=" ++ v.pyStr
            productCount := vd.length
            totalSales := truncInt ((vd.map FeatRow.sales).sum)
            avgPrice := (vd.map FeatRow.price).sum / (vd.length : Rat)
            avgRating := (vd.map FeatRow.rating).sum / (vd.length : Rat) : FeatureStat }))
      (sortByKeyDesc (fun fs => ((fs.totalSales : Rat), 0)) stats).take 20

/-- Per-platform block of `compute_market_statistics`. -/
structure PlatformStats where
  marketOverview : MarketOverview
  competition : Option CompMetrics
  priceBands : List PriceBand
  priceVsSales : Option PVS
  featurePerformance : List FeatureStat
  launchProfile : Option LaunchProfile
  ratingProfile : Option RatingProfile

/-- The per-platform dict literal of `compute_market_statistics`,
evaluated in source order with the in-place table mutations of the
banding/bucketing steps threaded through. -/
def computePlatformStats (df : Table) : PlatformStats :=
  let overview := compute_market_overview df
  let comp := compute_competition_metrics df
  let pb := compute_price_bands df 5
  let pv := compute_price_vs_sales_correlation pb.2
  let feats := extract_feature_performance pv.2
  let launch := compute_launch_profile pv.2
  let rp := compute_rating_profile pv.2
  { marketOverview := overview, competition := comp, priceBands := pb.1,
    priceVsSales := pv.1, featurePerformance := feats, launchProfile := launch,
    ratingProfile := rp.1 }

/-- The `cross_platform` block.  (The source reads the two frames after
their helper-column mutations; those mutations do not touch the columns
read here, so the block is computed from the input frames.) -/
structure CrossPlatform where
  amazonProducts : Nat
  tiktokProducts : Nat
  amazonSales : Int
  tiktokSales : Int
  amazonAvgPrice : Rat
  tiktokAvgPrice : Rat
  amazonAvgRating : Rat
  tiktokAvgRating : Rat

/-- Top-level market statistics document; an absent `cross_platform` key
is `none`. -/
structure MarketStats where
  timestamp : String
  platforms : List (String × PlatformStats)
  crossPlatform : Option CrossPlatform

/-- Whether an optional table is provided and non-empty. -/
def optNonEmpty : Option Table → Bool
  | none => false
  | some d => !d.isEmpty

/-- `compute_market_statistics` (its `timestamp` ambient input is the
`nowIso` parameter). -/
def compute_market_statistics (nowIso : String) (amazonDf tiktokDf : Option Table) :
    MarketStats :=
  let platforms := ([("amazon", amazonDf), ("tiktok", tiktokDf)]).filterMap
    (fun p =>
      match p.2 with
      | none => none
      | some d => if d.isEmpty then none else some (p.1, computePlatformStats d))
  let cross : Option CrossPlatform :=
    match amazonDf, tiktokDf with
    | some a, some t =>
      if !a.isEmpty && !t.isEmpty then
        some
          { amazonProducts := a.nRows
            tiktokProducts := t.nRows
            amazonSales := if a.hasCol "sales" then truncInt (sumN (a.colD "sales")) else 0
            tiktokSales := if t.hasCol "sales" then truncInt (sumN (t.colD "sales")) else 0
            amazonAvgPrice := if a.hasCol "price" then meanN (a.colD "price") else 0
            tiktokAvgPrice := if t.hasCol "price" then meanN (t.colD "price") else 0
            amazonAvgRating := if a.hasCol "rating" then meanN (a.colD "rating") else 0
            tiktokAvgRating := if t.hasCol "rating" then meanN (t.colD "rating") else 0 }
      else none
    | _, _ => none
  { timestamp := nowIso, platforms := platforms, crossPlatform := cross }

/-! ## Text cleaning (`clean_review_text`, `clean_comment_text`) -/

/-- Single quote as a string, for keyword literals containing one. -/
def sqS : String := String.singleton sq

/-- `re.sub(r"http\S+|www.\S+", "", _)`: deletes every leftmost
non-overlapping match; `.` matches any single non-newline character. -/
def removeUrls (cs : List Char) : List Char :=
  go (cs.length + 1) cs
where
  go : Nat → List Char → List Char
    | 0, l => l
    | _, [] => []
    | fuel + 1, c :: t =>
      if List.isPrefixOf "http".toList (c :: t) then
        let rest := (c :: t).drop 4
        let run := rest.takeWhile (fun ch => !isPySpace ch)
        if run.isEmpty then c :: go fuel t
        else go fuel (rest.drop run.length)
      else if List.isPrefixOf "www".toList (c :: t) then
        match (c :: t).drop 3 with
        | [] => c :: go fuel t
        | d :: rest2 =>
          if d = '\n' then c :: go fuel t
          else
            let run := rest2.takeWhile (fun ch => !isPySpace ch)
            if run.isEmpty then c :: go fuel t
            else go fuel (rest2.drop run.length)
      else c :: go fuel t

/-- Membership in the `[!?.]` character class. -/
def isPunct3 (c : Char) : Bool := c = '!' || c = '?' || c = '.'

/-- `re.sub(r"([!?.]){3,}", r"\1\1", _)`: a maximal run of three or more
mixed `!?.` characters becomes its last character doubled. -/
def squeezePunct (cs : List Char) : List Char :=
  go (cs.length + 1) cs
where
  go : Nat → List Char → List Char
    | 0, l => l
    | _, [] => []
    | fuel + 1, c :: t =>
      if isPunct3 c then
        let run := (c :: t).takeWhile isPunct3
        let rest := (c :: t).drop run.length
        if 3 ≤ run.length then run.getLastD c :: run.getLastD c :: go fuel rest
        else run ++ go fuel rest
      else c :: go fuel t

/-- Python `text.split()` on whitespace runs. -/
def wordsOf (cs : List Char) : List (List Char) :=
  (cs.foldr
    (fun c acc =>
      if isPySpace c then [] :: acc
      else
        match acc with
        | [] => [[c]]
        | w :: ws => (c :: w) :: ws)
    []).filter (fun w => !w.isEmpty)

/-- `" ".join(text.split())`. -/
def collapseWs (cs : List Char) : String :=
  String.intercalate " " ((wordsOf cs).map String.mk)

/-- `clean_review_text` (the `isinstance` guard is vacuous here because
the caller feeds `astype(str)` output). -/
def clean_review_text (text : String) : String :=
  (collapseWs (squeezePunct (removeUrls text.toList))).trim

/-- `re.sub(r"[\U00010000-\U0010ffff]+", " ", _)`: each astral-plane run
becomes one space. -/
def removeAstral (cs : List Char) : List Char :=
  go (cs.length + 1) cs
where
  go : Nat → List Char → List Char
    | 0, l => l
    | _, [] => []
    | fuel + 1, c :: t =>
      if 65536 ≤ c.toNat then ' ' :: go fuel (t.dropWhile (fun ch => 65536 ≤ ch.toNat))
      else c :: go fuel t

/-- Membership in `\w` (ASCII model of the regex word class). -/
def isWordChar (c : Char) : Bool := c.isAlphanum || c = '_'

/-- `re.sub(r"@\w+", "", _)`. -/
def removeMentions (cs : List Char) : List Char :=
  go (cs.length + 1) cs
where
  go : Nat → List Char → List Char
    | 0, l => l
    | _, [] => []
    | fuel + 1, c :: t =>
      if c = '@' then
        let run := t.takeWhile isWordChar
        if run.isEmpty then c :: go fuel t else go fuel (t.drop run.length)
      else c :: go fuel t

/-- `re.sub(r"#(\w+)", r"\1", _)`: deletes a `#` directly followed by a
word character (the word itself is kept). -/
def unHashtag (cs : List Char) : List Char :=
  go (cs.length + 1) cs
where
  go : Nat → List Char → List Char
    | 0, l => l
    | _, [] => []
    | fuel + 1, c :: t =>
      if c = '#' then
        match t with
        | d :: _ => if isWordChar d then go fuel t else c :: go fuel t
        | [] => [c]
      else c :: go fuel t

/-- `clean_comment_text`. -/
def clean_comment_text (text : String) : String :=
  (collapseWs (unHashtag (removeMentions (removeUrls (removeAstral text.toList))))).trim

/-- `is_valid_comment`. -/
def is_valid_comment (text : String) (minLength : Nat := 5) : Bool :=
  if text == "" || text.length < minLength then false
  else if !(text.toList.any Char.isAlphanum) then false
  else if ["follow me", "check out my", "click link", "dm me"].any
      (fun pat => containsSub (lowerStr text) pat) then false
  else true

/-! ## Reviews family (`reviews_amazon.py`) -/

/-- Exceptions raised by the normalizers.  `valueError` is Python's
built-in generic `ValueError`, the class the source raises;
`schemaError` models the dedicated `SchemaError` class named by the
specification (it appears nowhere in the code). -/
inductive PyErr where
  | valueError (msg : String)
  | schemaError (msg : String)
deriving DecidableEq

/-- Coarse classification of a normalizer result. -/
inductive RClass where
  | ok
  | valueErr
  | schemaErr
deriving DecidableEq

/-- Classifier of a normalizer result. -/
def resClass : Except PyErr Table → RClass
  | .ok _ => .ok
  | .error (.valueError _) => .valueErr
  | .error (.schemaError _) => .schemaErr

/-- Column alias patterns of `detect_amazon_review_columns`. -/
def amazonReviewPatterns : List (String × List String) :=
  [("product_id", ["asin", "product_id", "product id"]),
   ("text", ["text", "review_text", "review", "body", "comment"]),
   ("rating", ["rating", "star_rating", "stars", "score"]),
   ("helpful", ["helpful", "helpful_count", "helpful_votes", "upvotes"]),
   ("date", ["date", "review_date", "created_at", "timestamp"]),
   ("country", ["country", "location", "marketplace"]),
   ("title", ["title", "review_title", "summary"]),
   ("verified", ["verified", "verified_purchase"])]

/-- `detect_amazon_review_columns`. -/
def detect_amazon_review_columns (df : Table) : List (String × String) :=
  detectColsCI amazonReviewPatterns df

/-- One optional builder step `if field in column_mapping:
normalized[name] = transform(df[col])` (absent field: no column). -/
def stepG (t : Table) (nm : String) (o : Option (List Cell))
    (g : List Cell → List Cell) : Table :=
  match o with
  | some col => t.setCol nm (g col)
  | none => t

/-- One optional builder step with a broadcast scalar default on the
`else` branch. -/
def stepGD (t : Table) (nm : String) (o : Option (List Cell))
    (g : List Cell → List Cell) (d : Cell) : Table :=
  match o with
  | some col => t.setCol nm (g col)
  | none => t.setColScalar nm d

/-- The column-building body of `process_amazon_reviews`, given the
resolved text column. -/
def reviewCore (df : Table) (textCol : List Cell) : Table :=
  let cm := detect_amazon_review_columns df
  let src : String → Option (List Cell) := fun f => (lookupF cm f).map (fun c => df.colD c)
  let t : Table := ⟨[]⟩
  let t := stepG t "product_id" (src "product_id")
    (fun col => col.map (fun (c : Cell) => Cell.s c.pyStr))
  let t := t.setCol "text"
    (textCol.map (fun (c : Cell) => Cell.s (clean_review_text c.pyStr)))
  let t := stepGD t "rating" (src "rating")
    (fun col => rescaleRatingByMax (col.map toNumeric)) (Cell.n 0)
  let t := stepGD t "helpful" (src "helpful")
    (fun col => col.map (fun c => fillZero (toNumeric c))) (Cell.n 0)
  let t := stepG t "date" (src "date") (fun col => col.map parseDate)
  let t := stepG t "country" (src "country")
    (fun col => col.map (fun (c : Cell) => Cell.s c.pyStr))
  let t := stepG t "title" (src "title")
    (fun col => col.map (fun (c : Cell) => Cell.s c.pyStr))
  let t := stepGD t "verified" (src "verified")
    (fun col => col.map (fun (c : Cell) => Cell.b c.pyBool)) (Cell.b true)
  t.setColScalar "platform" (Cell.s "amazon")

/-- The final row-validity filter of `process_amazon_reviews`
(`normalized[normalized["text"].str.len() >= 10]`). -/
def reviewBuild (df : Table) (textCol : List Cell) : Table :=
  let t := reviewCore df textCol
  let mask := (t.colD "text").map (fun c => decide (10 ≤ (strD c).length))
  t.filterMask mask

/-- `process_amazon_reviews`. -/
def process_amazon_reviews (df : Table) : Except PyErr Table :=
  match (lookupF (detect_amazon_review_columns df) "text").map (fun c => df.colD c) with
  | none => .error (.valueError "Review text column not found in the uploaded file")
  | some textCol => .ok (reviewBuild df textCol)

/-- Text of an `iterrows` review/comment row. -/
def textOfRow (r : List (String × Cell)) : String := strD (rowGetD r "text" Cell.na)

/-- The `reviews["rating"] >= 4` positive filter (`NaN >= 4` is false). -/
def positiveRows (reviews : Table) : List (List (String × Cell)) :=
  reviews.rowsL.filter (fun r =>
    match (rowGetD r "rating" Cell.na).asNum with
    | some x => decide (4 ≤ x)
    | none => false)

/-- The `reviews["rating"] <= 2` negative filter. -/
def negativeRows (reviews : Table) : List (List (String × Cell)) :=
  reviews.rowsL.filter (fun r =>
    match (rowGetD r "rating" Cell.na).asNum with
    | some x => decide (x ≤ 2)
    | none => false)

/-- `any(kw in text_lower for kw in keywords)`. -/
def rowMatches (kws : List String) (r : List (String × Cell)) : Bool :=
  kws.any (fun kw => containsSub (lowerStr (textOfRow r)) kw)

/-- One collected mention. -/
structure Mention where
  text : String
  rating : Rat
  helpful : Rat
deriving DecidableEq

/-- The mention dict of one matching review. -/
def mentionOf (r : List (String × Cell)) : Mention :=
  { text := (textOfRow r).take 200
    rating := (rowGetD r "rating" Cell.na).num
    helpful := (rowGetD r "helpful" (Cell.n 0)).num }

/-- One reported must-have factor. -/
structure FactorOut where
  factor : String
  mentionCount : Nat
  examples : List Mention
deriving DecidableEq

/-- One reported critical pitfall. -/
structure PitfallOut where
  pitfall : String
  mentionCount : Nat
  examples : List Mention
deriving DecidableEq

/-- The `factor_keywords` dict of `extract_must_have_factors`. -/
def factorKeywordsMH : List (String × List String) :=
  [("quality", ["quality", "well made", "durable", "sturdy", "solid"]),
   ("price_value", ["worth", "value", "price", "affordable", "reasonable"]),
   ("easy_use", ["easy", "simple", "convenient", "straightforward", "user-friendly"]),
   ("performance", ["works", "performs", "effective", "efficient", "reliable"]),
   ("appearance", ["looks", "beautiful", "attractive", "gorgeous", "pretty"]),
   ("comfort", ["comfortable", "soft", "cozy", "fit", "smooth"]),
   ("fast_shipping", ["fast", "quick", "arrived", "delivery", "shipping"])]

/-- The `pitfall_keywords` dict of `extract_critical_pitfalls`. -/
def pitfallKeywords : List (String × List String) :=
  [("poor_quality", ["poor quality", "cheap", "broke", "broken", "fall apart", "defective"]),
   ("not_as_described", ["not as described", "misleading", "different", "wrong", "not what"]),
   ("bad_fit", ["doesn" ++ sqS ++ "t fit", "too small", "too large", "wrong size", "uncomfortable"]),
   ("delivery_issues", ["late", "damaged", "never arrived", "shipping", "package"]),
   ("overpriced", ["overpriced", "too expensive", "not worth", "waste of money"]),
   ("difficult_use", ["difficult", "hard to use", "complicated", "confusing"]),
   ("bad_smell", ["smell", "odor", "stink", "chemical"])]

/-- `extract_must_have_factors` (the per-row append loop over matching
reviews is a filter-and-map). -/
def extract_must_have_factors (reviews : Table) : List FactorOut :=
  let positive := positiveRows reviews
  if positive.isEmpty then []
  else
    let factors := factorKeywordsMH.filterMap (fun p =>
      let ms := (positive.filter (rowMatches p.2)).map mentionOf
      if ms.isEmpty then none
      else
        let kept := (sortByKeyDesc (fun m => (m.helpful, m.rating)) ms).take 3
        some { factor := p.1, mentionCount := kept.length, examples := kept })
    (sortByKeyDesc (fun f => ((f.mentionCount : Rat), 0)) factors).take 5

/-- `extract_critical_pitfalls`. -/
def extract_critical_pitfalls (reviews : Table) : List PitfallOut :=
  let negative := negativeRows reviews
  if negative.isEmpty then []
  else
    let pitfalls := pitfallKeywords.filterMap (fun p =>
      let ms := (negative.filter (rowMatches p.2)).map mentionOf
      if ms.isEmpty then none
      else
        let kept := (sortByKeyDesc (fun m => (m.helpful, -m.rating)) ms).take 3
        some { pitfall := p.1, mentionCount := kept.length, examples := kept })
    (sortByKeyDesc (fun f => ((f.mentionCount : Rat), 0)) pitfalls).take 5

/-- The `usage_keywords` dict of the review `extract_usage_scenarios`. -/
def usageKeywordsRev : List (String × List String) :=
  [("daily_use", ["daily", "everyday", "regular", "routine"]),
   ("special_occasions", ["wedding", "party", "event", "occasion", "celebration"]),
   ("professional", ["work", "office", "professional", "business", "meeting"]),
   ("outdoor", ["outdoor", "outside", "hiking", "camping", "travel"]),
   ("home", ["home", "house", "indoor", "bedroom", "living room"])]

/-- One reported usage scenario. -/
structure ScenarioOut where
  scenario : String
  mentionCount : Nat
  avgRating : Rat
deriving DecidableEq

/-- `extract_usage_scenarios` (reviews variant). -/
def extract_usage_scenarios (reviews : Table) : List ScenarioOut :=
  let scenarios := usageKeywordsRev.filterMap (fun p =>
    let ms := (reviews.rowsL.filter (rowMatches p.2)).map
      (fun r => ((rowGetD r "rating" Cell.na).num))
    if ms.isEmpty then none
    else some { scenario := p.1, mentionCount := ms.length,
                avgRating := ms.sum / (ms.length : Rat) : ScenarioOut })
  (sortByKeyDesc (fun s => ((s.mentionCount : Rat), 0)) scenarios).take 5

/-- The literal expansions of the `need_patterns` regexes, in the match
priority order of the regex engine (optional/alternative parts expanded,
greedy first). -/
def needPatterns : List (List String) :=
  [["wish it was", "wish it were", "wish it had",
    "wish there was", "wish there were", "wish there had"],
   ["would be better if", "would be nice if", "would be great if"],
   ["should have"],
   ["needs to", "needs more", "need to", "need more"],
   ["missing"],
   ["lacking"],
   ["could use"]]

/-- `re.finditer` for an alternation of literals: leftmost
non-overlapping matches, first listed alternative wins at each position;
returns (start, end) index pairs. -/
def findPatMatches (alts : List (List Char)) (cs : List Char) : List (Nat × Nat) :=
  go (cs.length + 1) cs 0
where
  go : Nat → List Char → Nat → List (Nat × Nat)
    | 0, _, _ => []
    | _, [], _ => []
    | fuel + 1, c :: t, pos =>
      match alts.findSome? (fun a =>
          if !a.isEmpty && List.isPrefixOf a (c :: t) then some a.length else none) with
      | some len => (pos, pos + len) :: go fuel ((c :: t).drop len) (pos + len)
      | none => go fuel t (pos + 1)

/-- One reported unmet need. -/
structure NeedOut where
  need : String
  mentionCount : Nat
deriving DecidableEq

/-- `extract_unmet_needs`: snippets are windows `[start-50, end+100)` of
the original text around matches found in its lowercased form;
`Counter(...).most_common(5)` is first-occurrence key order ranked by
count descending (stably). -/
def extract_unmet_needs (reviews : Table) : List NeedOut :=
  let unmet := reviews.rowsL.flatMap (fun r =>
    let text := textOfRow r
    let lowCs := (lowerStr text).toList
    needPatterns.flatMap (fun pat =>
      (findPatMatches (pat.map String.toList) lowCs).map (fun m =>
        let st := m.1 - 50
        let en := min text.length (m.2 + 100)
        (String.mk ((text.toList.drop st).take (en - st))).trim)))
  if unmet.isEmpty then []
  else
    let ranked := (sortByKeyDesc (fun p => ((p.2 : Rat), 0))
      ((dedupF unmet).map (fun k => (k, unmet.count k)))).take 5
    ranked.map (fun p => { need := p.1, mentionCount := p.2 })

/-! ## Comments family (`comments_tiktok.py`) -/

/-- The `col_map_candidates` dict of `detect_tiktok_comment_columns`. -/
def tiktokCommentCandidates : List (String × List String) :=
  [("video_id", ["video_id", "视频ID"]),
   ("comment_id", ["comment_id", "评论ID"]),
   ("user_id", ["user_id", "用户ID"]),
   ("username", ["username", "用户昵称", "昵称"]),
   ("text", ["comment_text", "text", "评论内容", "内容"]),
   ("created_at", ["created_at", "time", "发布时间"]),
   ("like_count", ["like_count", "likes", "点赞数"]),
   ("reply_count", ["reply_count", "replies", "回复数量"])]

/-- `detect_tiktok_comment_columns` (exact, case-sensitive matching:
the source tests `c in df.columns`). -/
def detect_tiktok_comment_columns (df : Table) : List (String × String) :=
  tiktokCommentCandidates.filterMap (fun p =>
    (p.2.find? (fun c => df.hasCol c)).map (fun c => (p.1, c)))

/-- `process_tiktok_comments`. -/
def process_tiktok_comments (df : Table) : Except PyErr Table :=
  let resolved := detect_tiktok_comment_columns df
  match lookupF resolved "text" with
  | none => .error (.valueError ("Comment text column not found. Available columns: "
      ++ pyStrList (df.cols.map Prod.fst)))
  | some _ =>
    let t := resolved.foldl
      (fun (t : Table) p =>
        if p.1 == "text" then
          t.setCol "text" ((df.colD p.2).map
            (fun (c : Cell) => Cell.s (clean_comment_text c.pyStr)))
        else t.setCol p.1 (df.colD p.2))
      ⟨[]⟩
    let t := t.mapCol "created_at" parseDate
    let t := if t.hasCol "like_count" then
        t.mapCol "like_count" (fun c => Cell.n ((truncInt (fillZero (toNumeric c)).num : Int) : Rat))
      else t.setColScalar "like_count" (Cell.n 0)
    let t := if t.hasCol "reply_count" then
        t.mapCol "reply_count" (fun c => Cell.n ((truncInt (fillZero (toNumeric c)).num : Int) : Rat))
      else t.setColScalar "reply_count" (Cell.n 0)
    let t := if t.hasCol "like_count" then t.setCol "likes" (t.colD "like_count") else t
    let t := t.setColScalar "source" (Cell.s "tiktok")
    let mask := (t.colD "text").map (fun c => is_valid_comment (strD c))
    let t := t.setCol "is_valid" (mask.map Cell.b)
    let t := t.filterMask mask
    .ok (t.dropCol "is_valid")

/-- The `positive_keywords` list of `categorize_comments`. -/
def positiveKeywordsC : List String :=
  ["love", "amazing", "perfect", "great", "best", "beautiful",
   "recommend", "worth", "buy", "purchased", "happy"]

/-- The `negative_keywords` list of `categorize_comments`. -/
def negativeKeywordsC : List String :=
  ["bad", "terrible", "worst", "poor", "disappointed", "waste",
   "don" ++ sqS ++ "t buy", "regret", "cheap", "fake", "scam"]

/-- The `usage_keywords` list of `categorize_comments`. -/
def usageKeywordsC : List String :=
  ["use", "wear", "tried", "works", "applying", "installed",
   "occasion", "event", "party", "daily", "everyday"]

/-- The `segment_keywords` dict of `categorize_comments`. -/
def segmentKeywordsC : List (String × List String) :=
  [("beginners", ["first time", "beginner", "new to", "starting"]),
   ("professionals", ["professional", "expert", "experienced", "pro"]),
   ("budget_conscious", ["cheap", "affordable", "budget", "price"]),
   ("quality_seekers", ["quality", "premium", "high-end", "luxury"])]

/-- Positive-keyword hits of one comment row
(`sum(1 for kw in positive_keywords if kw in text_lower)`). -/
def posHits (r : List (String × Cell)) : Nat :=
  positiveKeywordsC.countP (fun kw => containsSub (lowerStr (textOfRow r)) kw)

/-- Negative-keyword hits of one comment row. -/
def negHits (r : List (String × Cell)) : Nat :=
  negativeKeywordsC.countP (fun kw => containsSub (lowerStr (textOfRow r)) kw)

/-- `comment.get("likes", 0)` as a number. -/
def likesOfRow (r : List (String × Cell)) : Rat :=
  (rowGetD r "likes" (Cell.n 0)).num

/-- One reason-to-buy / reason-not-to-buy candidate. -/
structure CItem where
  text : String
  likes : Rat
  score : Nat
deriving DecidableEq

/-- One usage-scenario candidate. -/
structure UItem where
  text : String
  likes : Rat
deriving DecidableEq

/-- One user-segment tag. -/
structure SegItem where
  segment : String
  text : String
  likes : Rat
deriving DecidableEq

/-- Result of `categorize_comments`. -/
structure CatResult where
  reasonsToBuy : List CItem
  reasonsNotToBuy : List CItem
  usageScenarios : List UItem
  userSegments : List SegItem
deriving DecidableEq

/-- `categorize_comments`: the single pass over rows appending to the four
category lists is written as one comprehension per category (append order
is row order, so the lists coincide). -/
def categorize_comments (comments : Table) : CatResult :=
  let rows := comments.rowsL
  let buy := rows.filterMap (fun r =>
    if negHits r < posHits r then
      some { text := textOfRow r, likes := likesOfRow r, score := posHits r : CItem }
    else none)
  let notBuy := rows.filterMap (fun r =>
    if posHits r < negHits r then
      some { text := textOfRow r, likes := likesOfRow r, score := negHits r : CItem }
    else none)
  let usage := rows.filterMap (fun r =>
    if usageKeywordsC.any (fun kw => containsSub (lowerStr (textOfRow r)) kw) then
      some { text := textOfRow r, likes := likesOfRow r : UItem }
    else none)
  let segs := rows.flatMap (fun r =>
    segmentKeywordsC.filterMap (fun p =>
      if p.2.any (fun kw => containsSub (lowerStr (textOfRow r)) kw) then
        some { segment := p.1, text := textOfRow r, likes := likesOfRow r : SegItem }
      else none))
  { reasonsToBuy := (sortByKeyDesc (fun i => ((i.score : Rat), i.likes)) buy).take 10
    reasonsNotToBuy := (sortByKeyDesc (fun i => ((i.score : Rat), i.likes)) notBuy).take 10
    usageScenarios := (sortByKeyDesc (fun i => (i.likes, 0)) usage).take 10
    userSegments := segs }

/-! ## VOC statistics (`voc_statistics.py`) -/

/-- One `must_have_factors` entry of `compute_review_statistics`. -/
structure MHEntry where
  factor : String
  mentionCount : Nat
  topExamples : List String
deriving DecidableEq

/-- One `critical_pitfalls` entry of `compute_review_statistics`. -/
structure CPEntry where
  pitfall : String
  mentionCount : Nat
  topExamples : List String
deriving DecidableEq

/-- Result dict of `compute_review_statistics`; keys absent from the
empty-input default dict are `Option` fields. -/
structure ReviewStats where
  totalReviews : Option Nat
  amazonReviews : Option Nat
  tiktokReviews : Option Nat
  avgRating : Option Rat
  mustHaveFactors : List MHEntry
  criticalPitfalls : List CPEntry
  usageScenarios : List ScenarioOut
  unmetNeeds : List NeedOut
deriving DecidableEq

/-- The exact empty-input default of `compute_review_statistics`. -/
def emptyReviewStats : ReviewStats :=
  { totalReviews := none, amazonReviews := none, tiktokReviews := none,
    avgRating := none, mustHaveFactors := [], criticalPitfalls := [],
    usageScenarios := [], unmetNeeds := [] }

/-- `compute_review_statistics`. -/
def compute_review_statistics (reviewsDf : Table) : ReviewStats :=
  if reviewsDf.isEmpty then emptyReviewStats
  else
    { totalReviews := some reviewsDf.nRows
      amazonReviews := some ((reviewsDf.colD "platform").countP
        (fun c => c == Cell.s "amazon"))
      tiktokReviews := some ((reviewsDf.colD "platform").countP
        (fun c => c == Cell.s "tiktok"))
      avgRating := some (meanN (reviewsDf.colD "rating"))
      mustHaveFactors := (extract_must_have_factors reviewsDf).map (fun f =>
        { factor := f.factor, mentionCount := f.mentionCount,
          topExamples := (f.examples.take 2).map Mention.text })
      criticalPitfalls := (extract_critical_pitfalls reviewsDf).map (fun f =>
        { pitfall := f.pitfall, mentionCount := f.mentionCount,
          topExamples := (f.examples.take 2).map Mention.text })
      usageScenarios := extract_usage_scenarios reviewsDf
      unmetNeeds := extract_unmet_needs reviewsDf }

/-! ## Concrete instances used by the claim theorems -/

/-- A raw Amazon listing table whose rating column uses a 0-100 scale. -/
def dfC1 : Table := ⟨[("rating", [Cell.n 60])]⟩

/-- A canonical listing table with two prices. -/
def tC2 : Table := ⟨[("price", [Cell.n 1, Cell.n 2])]⟩

/-- A raw table without any resolvable text column. -/
def dfC3 : Table := ⟨[("foo", [Cell.s "hi"])]⟩

/-- A canonical listing table with two sales values. -/
def tC4 : Table := ⟨[("sales", [Cell.n 5, Cell.n 3])]⟩

/-- A canonical listing table with price, sales and rating. -/
def tC5 : Table := ⟨[("price", [Cell.n 1]), ("sales", [Cell.n 2]), ("rating", [Cell.n 3])]⟩

/-- A processed reviews table with four positive reviews mentioning
"quality". -/
def tC6 : Table :=
  ⟨[("text", [Cell.s "nice quality item", Cell.s "good quality thing",
              Cell.s "quality is here ok", Cell.s "such quality much wow"]),
    ("rating", [Cell.n 5, Cell.n 5, Cell.n 5, Cell.n 5]),
    ("helpful", [Cell.n 1, Cell.n 2, Cell.n 0, Cell.n 3])]⟩

/-- A processed comments table with a clear positive, a clear negative and
a neutral comment. -/
def tC7 : Table :=
  ⟨[("text", [Cell.s "love this best thing", Cell.s "bad terrible waste",
              Cell.s "meh ok thing"]),
    ("likes", [Cell.n 50, Cell.n 10, Cell.n 3])]⟩

/-- An empty (zero-row) reviews table. -/
def tC9 : Table := ⟨[("text", ([] : List Cell)), ("rating", ([] : List Cell))]⟩

/-- A raw reviews table with a resolvable text column (`body`) and no
resolvable rating column. -/
def dfC10 : Table := ⟨[("body", [Cell.s "this is a long enough review text"])]⟩

/-- The normalized form of `dfC10`. -/
def tC10 : Table :=
  match process_amazon_reviews dfC10 with
  | .ok t => t
  | .error _ => ⟨[]⟩

/-! ## Helper lemmas -/

theorem getCol_setCol_ne (t : Table) (nm : String) (v : List Cell) (c : String)
    (h : c ≠ nm) : (t.setCol nm v).getCol c = t.getCol c := by
  have hbeq : (nm == c) = false := by
    simp only [beq_eq_false_iff_ne]; exact fun hh => h hh.symm
  show ((Table.setCol.go nm v t.cols).find? (fun p => p.1 == c)).map (·.2) =
    (t.cols.find? (fun p => p.1 == c)).map (·.2)
  induction t.cols with
  | nil => simp [Table.setCol.go, List.find?, hbeq]
  | cons hd rest ih =>
    obtain ⟨m, w⟩ := hd
    by_cases hmn : m = nm
    · subst hmn
      simp only [Table.setCol.go, beq_self_eq_true, if_true, List.find?, hbeq]
    · have hmn2 : (m == nm) = false := by simp [hmn]
      simp only [Table.setCol.go, hmn2, if_false, List.find?]
      by_cases hmc : m = c
      · simp [hmc]
      · have : (m == c) = false := by simp [hmc]
        simp only [this]
        exact ih

theorem hasCol_setCol_self (t : Table) (nm : String) (v : List Cell) :
    (t.setCol nm v).hasCol nm = true := by
  show (Table.setCol.go nm v t.cols).any (fun p => p.1 == nm) = true
  induction t.cols with
  | nil => simp [Table.setCol.go]
  | cons hd rest ih =>
    obtain ⟨m, w⟩ := hd
    by_cases hmn : m = nm
    · subst hmn; simp [Table.setCol.go]
    · have hmn2 : (m == nm) = false := by simp [hmn]
      simp only [Table.setCol.go, hmn2, if_false, List.any_cons, hmn2]
      simpa using Or.inr ih

theorem getCol_filterMask (t : Table) (m : List Bool) (c : String) :
    (t.filterMask m).getCol c = (t.getCol c).map (maskFilter m) := by
  show ((t.cols.map (fun p => (p.1, maskFilter m p.2))).find? (fun p => p.1 == c)).map (·.2) =
    ((t.cols.find? (fun p => p.1 == c)).map (·.2)).map (maskFilter m)
  induction t.cols with
  | nil => simp [List.find?]
  | cons hd rest ih =>
    obtain ⟨nm, w⟩ := hd
    by_cases hmc : nm = c
    · simp [List.find?, hmc]
    · have : (nm == c) = false := by simp [hmc]
      simp only [List.map_cons, List.find?, this]
      exact ih

theorem mem_maskFilter {x : α} {m : List Bool} {l : List α}
    (h : x ∈ maskFilter m l) : x ∈ l := by
  unfold maskFilter at h
  obtain ⟨p, hp, hpx⟩ := List.mem_filterMap.mp h
  have hx : p.2 = x := by
    by_cases hb : p.1 <;> simp [hb] at hpx
    exact hpx
  exact hx ▸ (List.of_mem_zip hp).2

theorem getD_mem_or (l : List α) (i : Nat) (d : α) :
    l.getD i d ∈ l ∨ l.getD i d = d := by
  induction l generalizing i with
  | nil => simp [List.getD]
  | cons x xs ih =>
    cases i with
    | zero => left; simp [List.getD]
    | succ j =>
      rcases ih j with h | h
      · left; simp only [List.getD] at *; right; simpa using h
      · right; simpa [List.getD] using h

theorem rowGet_row (t : Table) (i : Nat) (c : String) :
    rowGet (t.row i) c = (t.getCol c).map (fun v => v.getD i Cell.na) := by
  show ((t.cols.map (fun p => (p.1, p.2.getD i Cell.na))).find? (fun p => p.1 == c)).map (·.2) =
    ((t.cols.find? (fun p => p.1 == c)).map (·.2)).map (fun v => v.getD i Cell.na)
  induction t.cols with
  | nil => simp [List.find?]
  | cons hd rest ih =>
    obtain ⟨nm, w⟩ := hd
    by_cases hmc : nm = c
    · simp [List.find?, hmc]
    · have : (nm == c) = false := by simp [hmc]
      simp only [List.map_cons, List.find?, this]
      exact ih

/-! ## Claim C1 -/

/-- C1 (code bug): `clean_amazon_sales` divides ratings above 5 by 10 only
once, so the raw rating 60 (a 0-100 scale) normalizes to 6, outside the
claimed canonical range `[0, 5]`, contradicting the source's own comment
"Ensure ratings are between 0 and 5". -/
theorem c1_amazon_rating_out_of_range :
    (clean_amazon_sales 0 dfC1).colD "rating" = [Cell.n 6] ∧
    ratingsInRangeB (clean_amazon_sales 0 dfC1) = false := by
  constructor <;> decide

/-! ## Claim C3 -/

/-- C3 (counterexample): on a table without a resolvable text column, both
normalizers raise Python's built-in `ValueError`, not the dedicated
`SchemaError` the specification names. -/
theorem c3_raises_value_error_not_schema_error :
    resClass (process_tiktok_comments dfC3) = RClass.valueErr ∧
    resClass (process_amazon_reviews dfC3) = RClass.valueErr := by
  constructor <;> decide

/-- C3 (amended): each normalizer fails exactly when its required text
column cannot be resolved, and the exception it raises is the generic
built-in `ValueError` (never a dedicated `SchemaError`). -/
theorem c3_value_error_iff_text_unresolved (df : Table) :
    resClass (process_tiktok_comments df) =
      (if (lookupF (detect_tiktok_comment_columns df) "text").isSome then
        RClass.ok else RClass.valueErr) ∧
    resClass (process_amazon_reviews df) =
      (if (lookupF (detect_amazon_review_columns df) "text").isSome then
        RClass.ok else RClass.valueErr) := by
  constructor
  · cases h : lookupF (detect_tiktok_comment_columns df) "text" <;>
      simp [process_tiktok_comments, h, resClass]
  · unfold process_amazon_reviews
    cases h : lookupF (detect_amazon_review_columns df) "text" <;>
      simp [h, resClass]

/-! ## Claim C5 -/

/-- C5 (counterexample): all three statistics functions mutate their input
table (they add the helper columns `price_band`, `price_bucket` and
`rating_category` in place), so the returned post-state differs from the
input. -/
theorem c5_statistics_mutate_input :
    (compute_price_bands tC5 5).2 ≠ tC5 ∧
    (compute_price_vs_sales_correlation tC5).2 ≠ tC5 ∧
    (compute_rating_profile tC5).2 ≠ tC5 := by
  refine ⟨?_, ?_, ?_⟩ <;> decide

/-- C5 (amended): the three functions change no existing column value and
no row: every column other than the one helper column each adds is left
exactly as it was; when the function's guard passes, the post-state table
additionally carries the new helper column. -/
theorem c5_frame_amended (df : Table) (c : String) :
    (c ≠ "price_band" →
      (compute_price_bands df 5).2.getCol c = df.getCol c) ∧
    (c ≠ "price_bucket" →
      (compute_price_vs_sales_correlation df).2.getCol c = df.getCol c) ∧
    (c ≠ "rating_category" →
      (compute_rating_profile df).2.getCol c = df.getCol c) ∧
    (df.isEmpty = false → df.hasCol "price" = true →
      (compute_price_bands df 5).2.hasCol "price_band" = true) ∧
    (df.isEmpty = false → df.hasCol "price" = true → df.hasCol "sales" = true →
      (compute_price_vs_sales_correlation df).2.hasCol "price_bucket" = true) ∧
    (df.isEmpty = false → df.hasCol "rating" = true →
      (compute_rating_profile df).2.hasCol "rating_category" = true) := by
  refine ⟨?_, ?_, ?_, ?_, ?_, ?_⟩
  · intro hc
    unfold compute_price_bands
    split
    · rfl
    · exact getCol_setCol_ne _ _ _ _ hc
  · intro hc
    unfold compute_price_vs_sales_correlation
    split
    · rfl
    · exact getCol_setCol_ne _ _ _ _ hc
  · intro hc
    unfold compute_rating_profile
    split
    · rfl
    · exact getCol_setCol_ne _ _ _ _ hc
  · intro he hp
    unfold compute_price_bands
    split
    · next hcond => simp [he, hp] at hcond
    · exact hasCol_setCol_self _ _ _
  · intro he hp hs
    unfold compute_price_vs_sales_correlation
    split
    · next hcond => simp [he, hp, hs] at hcond
    · exact hasCol_setCol_self _ _ _
  · intro he hr
    unfold compute_rating_profile
    split
    · next hcond => simp [he, hr] at hcond
    · exact hasCol_setCol_self _ _ _

/-- C5 witness: the amended frame property evaluated on a concrete table. -/
theorem c5_frame_amended_witness :
    (compute_price_bands tC5 5).2.getCol "price" = tC5.getCol "price" ∧
    (compute_price_vs_sales_correlation tC5).2.getCol "price" = tC5.getCol "price" ∧
    (compute_rating_profile tC5).2.getCol "price" = tC5.getCol "price" ∧
    (compute_price_bands tC5 5).2.hasCol "price_band" = true ∧
    (compute_price_vs_sales_correlation tC5).2.hasCol "price_bucket" = true ∧
    (compute_rating_profile tC5).2.hasCol "rating_category" = true := by
  have h := c5_frame_amended tC5 "price"
  exact ⟨h.1 (by decide), h.2.1 (by decide), h.2.2.1 (by decide),
    h.2.2.2.1 (by decide) (by decide),
    h.2.2.2.2.1 (by decide) (by decide) (by decide),
    h.2.2.2.2.2 (by decide) (by decide)⟩

/-! ## Claim C8 -/

/-- C8: the `cross_platform` key of `compute_market_statistics` is present
exactly when both platform tables are provided and non-empty; otherwise it
is structurally absent. -/
theorem c8_cross_platform_iff (nowIso : String) (amazonDf tiktokDf : Option Table) :
    (compute_market_statistics nowIso amazonDf tiktokDf).crossPlatform.isSome =
      (optNonEmpty amazonDf && optNonEmpty tiktokDf) := by
  unfold compute_market_statistics optNonEmpty
  cases amazonDf with
  | none => simp
  | some a =>
    cases tiktokDf with
    | none => simp
    | some t =>
      by_cases h : (!a.isEmpty && !t.isEmpty) = true
      · simp [h]
      · simp only [Bool.not_eq_true] at h
        simp [h]

/-! ## Claim C9 -/

/-- C9: on an empty reviews table, `compute_review_statistics` returns
exactly the four-key default dict (empty lists, no other keys) and, being
a total function, raises nothing. -/
theorem c9_empty_reviews_defaults (df : Table) (h : df.isEmpty = true) :
    compute_review_statistics df = emptyReviewStats := by
  unfold compute_review_statistics
  simp [h]

/-- C9 witness: the empty-table default on a concrete empty table. -/
theorem c9_empty_reviews_defaults_witness :
    compute_review_statistics tC9 = emptyReviewStats :=
  c9_empty_reviews_defaults tC9 (by decide)

/-! ## Claim C4 -/

theorem sum_take_le_sum (l : List Rat) (n : Nat) (h : ∀ x ∈ l, 0 ≤ x) :
    (l.take n).sum ≤ l.sum := by
  conv_rhs => rw [← List.take_append_drop n l]
  rw [List.sum_append]
  exact le_add_of_nonneg_right
    (List.sum_nonneg fun x hx => h x (List.mem_of_mem_drop hx))

theorem sum_take_mono (l : List Rat) {n m : Nat} (hnm : n ≤ m)
    (h : ∀ x ∈ l, 0 ≤ x) : (l.take n).sum ≤ (l.take m).sum := by
  have heq : l.take n = (l.take m).take n := by
    rw [List.take_take, Nat.min_eq_left hnm]
  rw [heq]
  exact sum_take_le_sum _ n fun x hx => h x (List.mem_of_mem_take hx)

/-- C4: with a present sales column and non-negative sales, the reported
top-10 and top-20 concentration shares satisfy
`0 ≤ top10_share ≤ top20_share ≤ 1`. -/
theorem c4_top_shares_monotone (df : Table)
    (h : ∀ x ∈ nums (df.colD "sales"), 0 ≤ x) :
    ∀ m, compute_competition_metrics df = some m →
      0 ≤ m.top10Share ∧ m.top10Share ≤ m.top20Share ∧ m.top20Share ≤ 1 := by
  intro m hm
  unfold compute_competition_metrics at hm
  split at hm
  · exact absurd hm (by simp)
  · replace hm := Option.some.inj hm
    subst hm
    set ns := nums (df.colD "sales") with hns
    set sorted := ns.insertionSort (fun a b => b ≤ a) with hsorted
    have hperm : List.Perm sorted ns := List.perm_insertionSort _ _
    have hsn : ∀ x ∈ sorted, 0 ≤ x := fun x hx => h x (hperm.mem_iff.mp hx)
    by_cases htot : 0 < ns.sum
    · simp only [if_pos htot]
      refine ⟨div_nonneg ?_ htot.le, ?_, ?_⟩
      · exact List.sum_nonneg fun x hx => hsn x (List.mem_of_mem_take hx)
      · have h12 : (sorted.take 10).sum ≤ (sorted.take 20).sum :=
          sum_take_mono _ (by norm_num) hsn
        exact (div_le_div_iff_of_pos_right htot).mpr h12
      · have h2t : (sorted.take 20).sum ≤ ns.sum := by
          rw [← hperm.sum_eq]
          exact sum_take_le_sum _ _ hsn
        exact (div_le_one htot).mpr h2t
    · simp only [if_neg htot]
      norm_num

/-- C4 witness: the share bounds evaluated on a concrete two-row table. -/
theorem c4_top_shares_monotone_witness :
    ((nums (tC4.colD "sales")).all (fun x => decide (0 ≤ x)) = true) ∧
    (compute_competition_metrics tC4).all (fun m =>
      decide (0 ≤ m.top10Share) && decide (m.top10Share ≤ m.top20Share) &&
      decide (m.top20Share ≤ 1)) = true := by
  refine ⟨by decide, ?_⟩
  have h := c4_top_shares_monotone tC4 (by decide)
  cases hres : compute_competition_metrics tC4 with
  | none => rfl
  | some m =>
    have hp := h m hres
    simp [Option.all, Bool.and_eq_true, decide_eq_true_eq]
    exact ⟨⟨hp.1, hp.2.1⟩, hp.2.2⟩

/-! ## Claim C7 -/

theorem length_filterMap_ite (P : β → Prop) [DecidablePred P] (g : β → α)
    (l : List β) :
    (l.filterMap (fun x => if P x then some (g x) else none)).length =
      l.countP (fun x => decide (P x)) := by
  induction l with
  | nil => rfl
  | cons x xs ih =>
    by_cases hP : P x <;>
      simp [List.filterMap_cons, hP, List.countP_cons, ih]

theorem mem_filterMap_ite {P : β → Prop} [DecidablePred P] {g : β → α}
    {l : List β} {y : α}
    (h : y ∈ l.filterMap (fun x => if P x then some (g x) else none)) :
    ∃ x ∈ l, P x ∧ y = g x := by
  obtain ⟨x, hx, hfx⟩ := List.mem_filterMap.mp h
  by_cases hP : P x
  · exact ⟨x, hx, hP, by rw [if_pos hP] at hfx; exact (Option.some.inj hfx).symm⟩
  · rw [if_neg hP] at hfx
    exact absurd hfx (by simp)

theorem pairwise_sortByKeyDesc (f : α → Rat × Rat) (l : List α) :
    List.Pairwise (keyGe f) (sortByKeyDesc f l) :=
  List.sorted_insertionSort _ _

theorem mem_sortByKeyDesc {f : α → Rat × Rat} {l : List α} {x : α} :
    x ∈ sortByKeyDesc f l ↔ x ∈ l :=
  List.mem_insertionSort _

/-- The three properties of a `take k` of a stably sorted comprehension. -/
theorem topK_props (f : α → Rat × Rat) (P : β → Prop) [DecidablePred P]
    (g : β → α) (l : List β) (k : Nat) :
    ((sortByKeyDesc f (l.filterMap (fun x => if P x then some (g x) else none))).take k).length
        = min k (l.countP (fun x => decide (P x))) ∧
    List.Pairwise (keyGe f)
      ((sortByKeyDesc f (l.filterMap (fun x => if P x then some (g x) else none))).take k) ∧
    ∀ y ∈ (sortByKeyDesc f (l.filterMap (fun x => if P x then some (g x) else none))).take k,
      ∃ x ∈ l, P x ∧ y = g x := by
  refine ⟨?_, ?_, ?_⟩
  · rw [List.length_take]
    unfold sortByKeyDesc
    rw [List.length_insertionSort, length_filterMap_ite]
  · exact List.Pairwise.sublist (List.take_sublist _ _) (pairwise_sortByKeyDesc f _)
  · intro y hy
    exact mem_filterMap_ite (mem_sortByKeyDesc.mp (List.mem_of_mem_take hy))

/-- C7: `categorize_comments` puts exactly the strictly net-positive
comments into "reasons to buy" and the strictly net-negative ones into
"reasons not to buy" (tied or zero-hit comments enter neither), each item
carrying the comment text, likes and its keyword hit count; each category
is ranked by (hit count, likes) descending and truncated to 10. -/
theorem c7_categorize_comments_spec (comments : Table) :
    ((categorize_comments comments).reasonsToBuy.length =
      min 10 (comments.rowsL.countP (fun r => decide (negHits r < posHits r)))) ∧
    ((categorize_comments comments).reasonsNotToBuy.length =
      min 10 (comments.rowsL.countP (fun r => decide (posHits r < negHits r)))) ∧
    (∀ i ∈ (categorize_comments comments).reasonsToBuy, ∃ r ∈ comments.rowsL,
      negHits r < posHits r ∧ i = ⟨textOfRow r, likesOfRow r, posHits r⟩) ∧
    (∀ i ∈ (categorize_comments comments).reasonsNotToBuy, ∃ r ∈ comments.rowsL,
      posHits r < negHits r ∧ i = ⟨textOfRow r, likesOfRow r, negHits r⟩) ∧
    List.Pairwise (keyGe (fun i : CItem => ((i.score : Rat), i.likes)))
      (categorize_comments comments).reasonsToBuy ∧
    List.Pairwise (keyGe (fun i : CItem => ((i.score : Rat), i.likes)))
      (categorize_comments comments).reasonsNotToBuy ∧
    (categorize_comments comments).reasonsToBuy.length ≤ 10 ∧
    (categorize_comments comments).reasonsNotToBuy.length ≤ 10 := by
  have hbuy := topK_props (fun i : CItem => ((i.score : Rat), i.likes))
    (fun r => negHits r < posHits r)
    (fun r => { text := textOfRow r, likes := likesOfRow r, score := posHits r : CItem })
    comments.rowsL 10
  have hnot := topK_props (fun i : CItem => ((i.score : Rat), i.likes))
    (fun r => posHits r < negHits r)
    (fun r => { text := textOfRow r, likes := likesOfRow r, score := negHits r : CItem })
    comments.rowsL 10
  refine ⟨hbuy.1, hnot.1, hbuy.2.2, hnot.2.2, hbuy.2.1, hnot.2.1, ?_, ?_⟩
  · exact List.length_take_le _ _
  · exact List.length_take_le _ _

/-- C7 witness: the categorization properties evaluated on a concrete
three-comment table. -/
theorem c7_categorize_comments_spec_witness :
    ((categorize_comments tC7).reasonsToBuy.length =
      min 10 (tC7.rowsL.countP (fun r => decide (negHits r < posHits r)))) ∧
    ((categorize_comments tC7).reasonsNotToBuy.length =
      min 10 (tC7.rowsL.countP (fun r => decide (posHits r < negHits r)))) ∧
    List.Pairwise (keyGe (fun i : CItem => ((i.score : Rat), i.likes)))
      (categorize_comments tC7).reasonsToBuy ∧
    (categorize_comments tC7).reasonsToBuy.length ≤ 10 := by
  have h := c7_categorize_comments_spec tC7
  exact ⟨h.1, h.2.1, h.2.2.2.2.1, h.2.2.2.2.2.2.1⟩

/-! ## Claim C6 -/

/-- C6 (counterexample): with four positive reviews all matching the
"quality" factor, the reported `mention_count` is 3 (the post-truncation
example count), not the number of matching reviews 4. -/
theorem c6_mention_count_capped :
    ((extract_must_have_factors tC6).map (fun f => (f.factor, f.mentionCount)) =
      [("quality", 3)]) ∧
    ((positiveRows tC6).countP
      (rowMatches ["quality", "well made", "durable", "sturdy", "solid"]) = 4) := by
  constructor <;> decide

/-- C6 (amended): in both extractors each reported factor's
`mention_count` equals the number of matching reviews capped at 3 (it is
the length of the kept example list, computed after the top-3
truncation), at most 3 examples are kept per factor, and at most 5
factors are reported, ordered by this capped mention count descending. -/
theorem c6_factors_amended (reviews : Table) :
    ((∀ f ∈ extract_must_have_factors reviews,
        ∃ kws, (f.factor, kws) ∈ factorKeywordsMH ∧
          f.mentionCount = min 3 ((positiveRows reviews).countP (rowMatches kws)) ∧
          f.examples.length = f.mentionCount) ∧
      (extract_must_have_factors reviews).length ≤ 5 ∧
      List.Pairwise (fun a b : FactorOut => b.mentionCount ≤ a.mentionCount)
        (extract_must_have_factors reviews)) ∧
    ((∀ f ∈ extract_critical_pitfalls reviews,
        ∃ kws, (f.pitfall, kws) ∈ pitfallKeywords ∧
          f.mentionCount = min 3 ((negativeRows reviews).countP (rowMatches kws)) ∧
          f.examples.length = f.mentionCount) ∧
      (extract_critical_pitfalls reviews).length ≤ 5 ∧
      List.Pairwise (fun a b : PitfallOut => b.mentionCount ≤ a.mentionCount)
        (extract_critical_pitfalls reviews)) := by
  constructor
  · by_cases hpos : (positiveRows reviews).isEmpty = true
    · simp only [extract_must_have_factors, if_pos hpos]
      refine ⟨by simp, by simp, by simp⟩
    · simp only [extract_must_have_factors, if_neg hpos]
      refine ⟨?_, ?_, ?_⟩
      · intro f hf
        have hf2 := mem_sortByKeyDesc.mp (List.mem_of_mem_take hf)
        obtain ⟨p, hp, hbody⟩ := List.mem_filterMap.mp hf2
        obtain ⟨nm, kws⟩ := p
        by_cases hms : (((positiveRows reviews).filter (rowMatches kws)).map mentionOf).isEmpty
        · rw [if_pos hms] at hbody
          exact absurd hbody (by simp)
        · rw [if_neg hms] at hbody
          replace hbody := Option.some.inj hbody
          refine ⟨kws, ?_, ?_, ?_⟩
          · rw [← hbody]; exact hp
          · rw [← hbody]
            show (((sortByKeyDesc _ _).take 3).length) = _
            rw [List.length_take]
            unfold sortByKeyDesc
            rw [List.length_insertionSort, List.length_map,
              ← List.countP_eq_length_filter]
          · rw [← hbody]
      · exact List.length_take_le _ _
      · refine List.Pairwise.imp ?_
          (List.Pairwise.sublist (List.take_sublist _ _)
            (pairwise_sortByKeyDesc (fun f : FactorOut => ((f.mentionCount : Rat), 0)) _))
        intro a b hab
        rcases hab with hlt | ⟨heq, _⟩
        · have hc : (b.mentionCount : Rat) ≤ a.mentionCount := by simpa using hlt.le
          exact_mod_cast hc
        · have hc : (b.mentionCount : Rat) ≤ a.mentionCount := by simpa using le_of_eq heq
          exact_mod_cast hc
  · by_cases hneg : (negativeRows reviews).isEmpty = true
    · simp only [extract_critical_pitfalls, if_pos hneg]
      refine ⟨by simp, by simp, by simp⟩
    · simp only [extract_critical_pitfalls, if_neg hneg]
      refine ⟨?_, ?_, ?_⟩
      · intro f hf
        have hf2 := mem_sortByKeyDesc.mp (List.mem_of_mem_take hf)
        obtain ⟨p, hp, hbody⟩ := List.mem_filterMap.mp hf2
        obtain ⟨nm, kws⟩ := p
        by_cases hms : (((negativeRows reviews).filter (rowMatches kws)).map mentionOf).isEmpty
        · rw [if_pos hms] at hbody
          exact absurd hbody (by simp)
        · rw [if_neg hms] at hbody
          replace hbody := Option.some.inj hbody
          refine ⟨kws, ?_, ?_, ?_⟩
          · rw [← hbody]; exact hp
          · rw [← hbody]
            show (((sortByKeyDesc _ _).take 3).length) = _
            rw [List.length_take]
            unfold sortByKeyDesc
            rw [List.length_insertionSort, List.length_map,
              ← List.countP_eq_length_filter]
          · rw [← hbody]
      · exact List.length_take_le _ _
      · refine List.Pairwise.imp ?_
          (List.Pairwise.sublist (List.take_sublist _ _)
            (pairwise_sortByKeyDesc (fun f : PitfallOut => ((f.mentionCount : Rat), 0)) _))
        intro a b hab
        rcases hab with hlt | ⟨heq, _⟩
        · have hc : (b.mentionCount : Rat) ≤ a.mentionCount := by simpa using hlt.le
          exact_mod_cast hc
        · have hc : (b.mentionCount : Rat) ≤ a.mentionCount := by simpa using le_of_eq heq
          exact_mod_cast hc

/-- C6 witness: the amended factor properties evaluated on the concrete
four-review table. -/
theorem c6_factors_amended_witness :
    (extract_must_have_factors tC6).length ≤ 5 ∧
    List.Pairwise (fun a b : FactorOut => b.mentionCount ≤ a.mentionCount)
      (extract_must_have_factors tC6) ∧
    (extract_critical_pitfalls tC6).length ≤ 5 := by
  have h := c6_factors_amended tC6
  exact ⟨h.1.2.1, h.1.2.2, h.2.2.1⟩

/-! ## Claim C2 -/

theorem dedupF_go_sub [DecidableEq α] {x : α} :
    ∀ {seen l : List α}, x ∈ dedupF.go seen l → x ∈ l := by
  intro seen l
  induction l generalizing seen with
  | nil => intro h; simp [dedupF.go] at h
  | cons y ys ih =>
    intro h
    by_cases hy : y ∈ seen
    · simp only [dedupF.go, if_pos hy] at h
      exact List.mem_cons_of_mem _ (ih h)
    · simp only [dedupF.go, if_neg hy] at h
      rcases List.mem_cons.mp h with h1 | h2
      · exact h1 ▸ List.mem_cons_self _ _
      · exact List.mem_cons_of_mem _ (ih h2)

theorem mem_dedupF_go [DecidableEq α] {x : α} :
    ∀ {seen l : List α}, x ∈ l → x ∉ seen → x ∈ dedupF.go seen l := by
  intro seen l
  induction l generalizing seen with
  | nil => intro h _; simp at h
  | cons y ys ih =>
    intro hx hs
    by_cases hy : y ∈ seen
    · simp only [dedupF.go, if_pos hy]
      rcases List.mem_cons.mp hx with h1 | h2
      · exact absurd (h1 ▸ hy) hs
      · exact ih h2 hs
    · simp only [dedupF.go, if_neg hy]
      rcases List.mem_cons.mp hx with h1 | h2
      · exact h1 ▸ List.mem_cons_self _ _
      · by_cases hxy : x = y
        · exact hxy ▸ List.mem_cons_self _ _
        · exact List.mem_cons_of_mem _
            (ih h2 (fun hmem => (List.mem_cons.mp hmem).elim hxy hs))

theorem dedupF_go_nodup [DecidableEq α] :
    ∀ (l seen : List α),
      (dedupF.go seen l).Nodup ∧ ∀ y ∈ dedupF.go seen l, y ∉ seen := by
  intro l
  induction l with
  | nil => intro seen; simp [dedupF.go]
  | cons y ys ih =>
    intro seen
    by_cases hy : y ∈ seen
    · simp only [dedupF.go, if_pos hy]
      exact ih seen
    · simp only [dedupF.go, if_neg hy]
      obtain ⟨hnd, hns⟩ := ih (y :: seen)
      refine ⟨List.nodup_cons.mpr ⟨?_, hnd⟩, ?_⟩
      · exact fun hmem => hns y hmem (List.mem_cons_self _ _)
      · intro z hz hzs
        rcases List.mem_cons.mp hz with h1 | h2
        · exact hy (h1 ▸ hzs)
        · exact hns z h2 (List.mem_cons_of_mem _ hzs)

theorem mem_dedupF [DecidableEq α] {x : α} {l : List α} :
    x ∈ dedupF l ↔ x ∈ l :=
  ⟨fun h => dedupF_go_sub h, fun h => mem_dedupF_go h (List.not_mem_nil x)⟩

theorem nodup_dedupF [DecidableEq α] (l : List α) : (dedupF l).Nodup :=
  (dedupF_go_nodup l []).1

theorem count_true_map (f : α → Bool) (l : List α) :
    (l.map f).count true = l.countP f := by
  induction l with
  | nil => rfl
  | cons x xs ih =>
    cases hfx : f x <;>
      simp [List.count_cons, List.countP_cons, hfx, ih]

theorem sum_countP_partition (u : List Nat) (ids : List Nat) (hu : u.Nodup)
    (hcov : ∀ x ∈ ids, x ∈ u) :
    (u.map (fun b => ids.countP (fun x => x == b))).sum = ids.length := by
  induction u generalizing ids with
  | nil =>
    cases ids with
    | nil => simp
    | cons a t => exact absurd (hcov a (List.mem_cons_self _ _)) (List.not_mem_nil a)
  | cons b u ih =>
    obtain ⟨hbu, hu2⟩ := List.nodup_cons.mp hu
    simp only [List.map_cons, List.sum_cons]
    have htail : (u.map (fun b2 => ids.countP (fun x => x == b2))).sum =
        (u.map (fun b2 =>
          (ids.filter (fun x => !(x == b))).countP (fun x => x == b2))).sum := by
      congr 1
      apply List.map_congr_left
      intro b2 hb2
      rw [List.countP_filter]
      apply List.countP_congr
      intro x _
      constructor
      · intro hxb2
        have hxeq : x = b2 := by simpa using hxb2
        have hxnb : (x == b) = false := by
          simp only [beq_eq_false_iff_ne]
          intro hxb
          exact hbu (hxb ▸ hxeq ▸ hb2)
        rw [hxb2, hxnb]
        rfl
      · intro hx
        cases hb2x : (x == b2) with
        | false => rw [hb2x] at hx; simp at hx
        | true => rfl
    rw [htail, ih _ hu2 ?cov]
    case cov =>
      intro x hx
      have hxid := List.mem_of_mem_filter hx
      have hxb : (x == b) = false := by
        have h2 := List.of_mem_filter hx
        simpa using h2
      rcases List.mem_cons.mp (hcov x hxid) with h1 | h2
      · rw [h1] at hxb; simp at hxb
      · exact h2
    rw [← List.countP_eq_length_filter]
    have hsplit := List.length_eq_countP_add_countP (p := fun x => x == b) (l := ids)
    have hconv : ids.countP (fun a => decide (¬(a == b) = true)) =
        ids.countP (fun x => !(x == b)) := by
      apply List.countP_congr
      intro x _
      cases h : (x == b) <;> simp [h]
    rw [hconv] at hsplit
    omega

theorem length_filterMap_isSome (f : α → Option β) (l : List α)
    (h : ∀ x ∈ l, (f x).isSome = true) : (l.filterMap f).length = l.length := by
  induction l with
  | nil => rfl
  | cons x xs ih =>
    obtain ⟨v, hv⟩ := Option.isSome_iff_exists.mp (h x (List.mem_cons_self _ _))
    rw [List.filterMap_cons, hv]
    simp [ih (fun y hy => h y (List.mem_cons_of_mem _ hy))]

theorem maskFilter_cons (b : Bool) (m : List Bool) (x : α) (l : List α) :
    maskFilter (b :: m) (x :: l) =
      if b then x :: maskFilter m l else maskFilter m l := by
  cases b <;> simp [maskFilter, List.zip_cons_cons, List.filterMap_cons]

theorem bandCol_countP (edges : List Rat) (pc : List Cell)
    (h : ∀ c ∈ pc, c.asNum.isSome = true) (bid : Nat) :
    (pc.map (bandCellOf edges)).countP (fun c => c == Cell.n ((bid : Nat) : Rat)) =
      ((nums pc).map (bandOfPrice edges)).countP (fun x => x == bid) := by
  induction pc with
  | nil => rfl
  | cons c cs ih =>
    obtain ⟨v, hv⟩ := Option.isSome_iff_exists.mp (h c (List.mem_cons_self _ _))
    have hnums : nums (c :: cs) = v :: nums cs := by
      simp [nums, List.filterMap_cons, hv]
    have hcell : bandCellOf edges c = Cell.n ((bandOfPrice edges v : Nat) : Rat) := by
      simp [bandCellOf, hv]
    rw [List.map_cons, hnums, List.map_cons, List.countP_cons, List.countP_cons, hcell,
      ih (fun y hy => h y (List.mem_cons_of_mem _ hy))]
    congr 1
    by_cases hb : bandOfPrice edges v = bid
    · simp [hb]
    · have h1 : (Cell.n ((bandOfPrice edges v : Nat) : Rat) ==
          Cell.n ((bid : Nat) : Rat)) = false := by
        simp only [beq_eq_false_iff_ne]
        intro hcelleq
        injection hcelleq with h2
        exact hb (Nat.cast_inj.mp h2)
      have h2 : ((bandOfPrice edges v : Nat) == bid) = false := by simpa using hb
      rw [h1, h2]

theorem bandCol_maskFilter (edges : List Rat) (pc : List Cell)
    (h : ∀ c ∈ pc, c.asNum.isSome = true) (bid : Nat) :
    nums (maskFilter ((pc.map (bandCellOf edges)).map
        (fun c => c == Cell.n ((bid : Nat) : Rat))) pc) =
      (nums pc).filter (fun v => bandOfPrice edges v == bid) := by
  induction pc with
  | nil => rfl
  | cons c cs ih =>
    obtain ⟨v, hv⟩ := Option.isSome_iff_exists.mp (h c (List.mem_cons_self _ _))
    have hnums : nums (c :: cs) = v :: nums cs := by
      simp [nums, List.filterMap_cons, hv]
    have hcell : bandCellOf edges c = Cell.n ((bandOfPrice edges v : Nat) : Rat) := by
      simp [bandCellOf, hv]
    have ihr := ih (fun y hy => h y (List.mem_cons_of_mem _ hy))
    rw [List.map_cons, List.map_cons, maskFilter_cons, hnums, List.filter_cons, hcell]
    by_cases hb : bandOfPrice edges v = bid
    · have hbeqc : (Cell.n ((bandOfPrice edges v : Nat) : Rat) ==
          Cell.n ((bid : Nat) : Rat)) = true := by simp [hb]
      have hbeqn : (bandOfPrice edges v == bid) = true := by simp [hb]
      rw [hbeqc, hbeqn, if_pos rfl, if_pos rfl]
      have : nums (c :: maskFilter ((cs.map (bandCellOf edges)).map
          (fun c => c == Cell.n ((bid : Nat) : Rat))) cs) =
          v :: nums (maskFilter ((cs.map (bandCellOf edges)).map
            (fun c => c == Cell.n ((bid : Nat) : Rat))) cs) := by
        simp [nums, List.filterMap_cons, hv]
      rw [this, ihr]
    · have hbeqc : (Cell.n ((bandOfPrice edges v : Nat) : Rat) ==
          Cell.n ((bid : Nat) : Rat)) = false := by
        simp only [beq_eq_false_iff_ne]
        intro hcelleq
        injection hcelleq with h2
        exact hb (Nat.cast_inj.mp h2)
      have hbeqn : (bandOfPrice edges v == bid) = false := by simpa using hb
      rw [hbeqc, hbeqn]
      simpa using ihr

theorem foldl_min_le_init (l : List Rat) : ∀ a : Rat, l.foldl min a ≤ a := by
  induction l with
  | nil => intro a; simp
  | cons x xs ih => intro a; exact le_trans (ih (min a x)) (min_le_left a x)

theorem foldl_min_le_mem {x : Rat} :
    ∀ {l : List Rat} (a : Rat), x ∈ l → l.foldl min a ≤ x := by
  intro l
  induction l with
  | nil => intro a h; simp at h
  | cons y ys ih =>
    intro a h
    rcases List.mem_cons.mp h with h1 | h2
    · rw [h1, List.foldl_cons]
      exact le_trans (foldl_min_le_init ys _) (min_le_right a y)
    · exact ih _ h2

theorem foldl_min_mem_or : ∀ (l : List Rat) (a : Rat),
    l.foldl min a = a ∨ l.foldl min a ∈ l := by
  intro l
  induction l with
  | nil => intro a; left; rfl
  | cons x xs ih =>
    intro a
    rcases ih (min a x) with h | h
    · rcases min_choice a x with hm | hm
      · left; rw [List.foldl_cons, h, hm]
      · right; rw [List.foldl_cons, h, hm]; exact List.mem_cons_self _ _
    · right; exact List.mem_cons_of_mem _ h

theorem listMinD_le {l : List Rat} {x : Rat} (hx : x ∈ l) : listMinD l ≤ x := by
  cases l with
  | nil => simp at hx
  | cons y ys =>
    rcases List.mem_cons.mp hx with h1 | h2
    · rw [h1]; exact foldl_min_le_init ys y
    · exact foldl_min_le_mem _ h2

theorem listMinD_mem {l : List Rat} (h : l ≠ []) : listMinD l ∈ l := by
  cases l with
  | nil => exact absurd rfl h
  | cons y ys =>
    rcases foldl_min_mem_or ys y with h1 | h1
    · show ys.foldl min y ∈ y :: ys
      rw [h1]; exact List.mem_cons_self _ _
    · exact List.mem_cons_of_mem _ h1

theorem foldl_max_ge_init (l : List Rat) : ∀ a : Rat, a ≤ l.foldl max a := by
  induction l with
  | nil => intro a; simp
  | cons x xs ih => intro a; exact le_trans (le_max_left a x) (ih (max a x))

theorem foldl_max_ge_mem {x : Rat} :
    ∀ {l : List Rat} (a : Rat), x ∈ l → x ≤ l.foldl max a := by
  intro l
  induction l with
  | nil => intro a h; simp at h
  | cons y ys ih =>
    intro a h
    rcases List.mem_cons.mp h with h1 | h2
    · rw [h1, List.foldl_cons]
      exact le_trans (le_max_right a y) (foldl_max_ge_init ys _)
    · exact ih _ h2

theorem foldl_max_mem_or : ∀ (l : List Rat) (a : Rat),
    l.foldl max a = a ∨ l.foldl max a ∈ l := by
  intro l
  induction l with
  | nil => intro a; left; rfl
  | cons x xs ih =>
    intro a
    rcases ih (max a x) with h | h
    · rcases max_choice a x with hm | hm
      · left; rw [List.foldl_cons, h, hm]
      · right; rw [List.foldl_cons, h, hm]; exact List.mem_cons_self _ _
    · right; exact List.mem_cons_of_mem _ h

theorem le_listMaxD {l : List Rat} {x : Rat} (hx : x ∈ l) : x ≤ listMaxD l := by
  cases l with
  | nil => simp at hx
  | cons y ys =>
    rcases List.mem_cons.mp hx with h1 | h2
    · rw [h1]; exact foldl_max_ge_init ys y
    · exact foldl_max_ge_mem _ h2

theorem listMaxD_mem {l : List Rat} (h : l ≠ []) : listMaxD l ∈ l := by
  cases l with
  | nil => exact absurd rfl h
  | cons y ys =>
    rcases foldl_max_mem_or ys y with h1 | h1
    · show ys.foldl max y ∈ y :: ys
      rw [h1]; exact List.mem_cons_self _ _
    · exact List.mem_cons_of_mem _ h1

theorem bandOfPrice_mono (edges : List Rat) {v w : Rat} (hvw : v ≤ w) :
    bandOfPrice edges v ≤ bandOfPrice edges w := by
  apply List.countP_mono_left
  intro e _ hev
  simp only [decide_eq_true_eq] at *
  exact lt_of_lt_of_le hev hvw

/-- C2 (counterexample): on the two-price table `[1, 2]` with five
requested bands, the reported bands are `[1,1]` and `[2,2]`: they do not
cover the value `3/2` of the observed range `[1, 2]`, so the ranges have a
gap (while the counts still sum to the row count). -/
theorem c2_price_bands_gap :
    ((compute_price_bands tC2 5).1.map
      (fun b => (b.band, b.priceMin, b.priceMax, b.productCount)) =
      [(0, 1, 1, 1), (4, 2, 2, 1)]) ∧
    minN (tC2.colD "price") = 1 ∧ maxN (tC2.colD "price") = 2 ∧
    ((compute_price_bands tC2 5).1.all (fun b =>
      !(decide (b.priceMin ≤ (3 : Rat) / 2) &&
        decide ((3 : Rat) / 2 ≤ b.priceMax)))) = true := by
  refine ⟨?_, ?_, ?_, ?_⟩ <;> decide

/-- C2 (amended): for a non-empty table with an all-numeric price column,
the price bands of `compute_price_bands` are ordered with pairwise
disjoint ranges, every observed price falls inside some band's range, and
the product counts sum to the row count; the union of the ranges spans
from the observed minimum to the observed maximum but may leave gaps at
unobserved prices between consecutive bands. -/
theorem c2_price_bands_amended (df : Table) (numBands : Nat)
    (hne : df.isEmpty = false) (hp : df.hasCol "price" = true)
    (hnum : ∀ c ∈ df.colD "price", c.asNum.isSome = true)
    (hlen : (df.colD "price").length = df.nRows) :
    ((compute_price_bands df numBands).1.map PriceBand.productCount).sum = df.nRows ∧
    List.Pairwise (fun a b : PriceBand => a.priceMax < b.priceMin)
      (compute_price_bands df numBands).1 ∧
    (∀ q ∈ nums (df.colD "price"), ∃ bd ∈ (compute_price_bands df numBands).1,
      bd.priceMin ≤ q ∧ q ≤ bd.priceMax) := by
  have hcond : ¬((df.isEmpty || !df.hasCol "price") = true) := by
    simp [hne, hp]
  have hbands : (compute_price_bands df numBands).1 =
      ((dedupF ((nums (df.colD "price")).map
          (bandOfPrice (qcutEdges (nums (df.colD "price")) numBands)))).insertionSort
        (· ≤ ·)).map
        (fun bid =>
          let mask := ((df.colD "price").map
            (bandCellOf (qcutEdges (nums (df.colD "price")) numBands))).map
            (fun c => c == Cell.n ((bid : Nat) : Rat))
          { band := bid
            priceMin := listMinD (nums (maskFilter mask (df.colD "price")))
            priceMax := listMaxD (nums (maskFilter mask (df.colD "price")))
            productCount := mask.count true
            totalSales := if df.hasCol "sales" then
                truncInt (sumN (maskFilter mask (df.colD "sales"))) else 0
            totalRevenue := if df.hasCol "revenue" then
                sumN (maskFilter mask (df.colD "revenue")) else 0
            avgRating := if df.hasCol "rating" then
                meanN (maskFilter mask (df.colD "rating")) else 0 }) := by
    unfold compute_price_bands
    rw [if_neg hcond]
  set pc := df.colD "price" with hpc
  set edges := qcutEdges (nums pc) numBands with hedges
  set ids := (nums pc).map (bandOfPrice edges) with hids
  set present := (dedupF ids).insertionSort (· ≤ ·) with hpresent
  have hmemp : ∀ {y : Nat}, y ∈ ids → y ∈ present := by
    intro y hy
    exact (List.mem_insertionSort _).mpr (mem_dedupF.mpr hy)
  have hpresent_sub : ∀ {y : Nat}, y ∈ present → y ∈ ids := by
    intro y hy
    exact mem_dedupF.mp ((List.mem_insertionSort _).mp hy)
  refine ⟨?_, ?_, ?_⟩
  · rw [hbands, List.map_map]
    have hpt : present.map (PriceBand.productCount ∘ (fun bid =>
        let mask := (pc.map (bandCellOf edges)).map
          (fun c => c == Cell.n ((bid : Nat) : Rat))
        ({ band := bid
           priceMin := listMinD (nums (maskFilter mask pc))
           priceMax := listMaxD (nums (maskFilter mask pc))
           productCount := mask.count true
           totalSales := if df.hasCol "sales" then
               truncInt (sumN (maskFilter mask (df.colD "sales"))) else 0
           totalRevenue := if df.hasCol "revenue" then
               sumN (maskFilter mask (df.colD "revenue")) else 0
           avgRating := if df.hasCol "rating" then
               meanN (maskFilter mask (df.colD "rating")) else 0 } : PriceBand))) =
        present.map (fun bid => ids.countP (fun x => x == bid)) := by
      apply List.map_congr_left
      intro bid _
      show ((pc.map (bandCellOf edges)).map
        (fun c => c == Cell.n ((bid : Nat) : Rat))).count true = _
      rw [count_true_map, bandCol_countP edges pc hnum bid]
    rw [hpt, sum_countP_partition present ids
      ((List.perm_insertionSort _ _).nodup_iff.mpr (nodup_dedupF _))
      (fun x hx => hmemp hx)]
    rw [hids, List.length_map]
    show (pc.filterMap Cell.asNum).length = _
    rw [length_filterMap_isSome Cell.asNum pc hnum, hlen]
  · rw [hbands]
    apply List.pairwise_map.mpr
    have hpl : List.Pairwise (· < ·) present := by
      have hsort : List.Pairwise (· ≤ ·) present := List.sorted_insertionSort _ _
      have hnd : List.Pairwise (· ≠ ·) present :=
        (List.perm_insertionSort _ _).nodup_iff.mpr (nodup_dedupF _)
      exact (hsort.and hnd).imp (fun h => lt_of_le_of_ne h.1 h.2)
    apply List.Pairwise.imp_of_mem ?_ hpl
    intro a b ha hb hab
    show listMaxD (nums (maskFilter ((pc.map (bandCellOf edges)).map
        (fun c => c == Cell.n ((a : Nat) : Rat))) pc)) <
      listMinD (nums (maskFilter ((pc.map (bandCellOf edges)).map
        (fun c => c == Cell.n ((b : Nat) : Rat))) pc))
    rw [bandCol_maskFilter edges pc hnum a, bandCol_maskFilter edges pc hnum b]
    obtain ⟨va, hva, hvaeq⟩ := List.mem_map.mp (hpresent_sub ha)
    obtain ⟨vb, hvb, hvbeq⟩ := List.mem_map.mp (hpresent_sub hb)
    have hvaf : va ∈ (nums pc).filter (fun v => bandOfPrice edges v == a) :=
      List.mem_filter.mpr ⟨hva, by simp [hvaeq]⟩
    have hvbf : vb ∈ (nums pc).filter (fun v => bandOfPrice edges v == b) :=
      List.mem_filter.mpr ⟨hvb, by simp [hvbeq]⟩
    have hmax := listMaxD_mem (List.ne_nil_of_mem hvaf)
    have hmin := listMinD_mem (List.ne_nil_of_mem hvbf)
    have hmaxband : bandOfPrice edges
        (listMaxD ((nums pc).filter (fun v => bandOfPrice edges v == a))) = a := by
      have := (List.mem_filter.mp hmax).2
      simpa using this
    have hminband : bandOfPrice edges
        (listMinD ((nums pc).filter (fun v => bandOfPrice edges v == b))) = b := by
      have := (List.mem_filter.mp hmin).2
      simpa using this
    by_contra hcon
    push_neg at hcon
    have hmono := bandOfPrice_mono edges hcon
    rw [hminband, hmaxband] at hmono
    exact absurd hab (not_lt.mpr hmono)
  · intro q hq
    rw [hbands]
    refine ⟨_, List.mem_map_of_mem _ (hmemp (List.mem_map_of_mem _ hq)), ?_, ?_⟩
    · show listMinD (nums (maskFilter ((pc.map (bandCellOf edges)).map
        (fun c => c == Cell.n ((bandOfPrice edges q : Nat) : Rat))) pc)) ≤ q
      rw [bandCol_maskFilter edges pc hnum]
      exact listMinD_le (List.mem_filter.mpr ⟨hq, by simp⟩)
    · show q ≤ listMaxD (nums (maskFilter ((pc.map (bandCellOf edges)).map
        (fun c => c == Cell.n ((bandOfPrice edges q : Nat) : Rat))) pc))
      rw [bandCol_maskFilter edges pc hnum]
      exact le_listMaxD (List.mem_filter.mpr ⟨hq, by simp⟩)

/-- C2 witness: the amended banding properties evaluated on the concrete
two-price table. -/
theorem c2_price_bands_amended_witness :
    ((compute_price_bands tC2 5).1.map PriceBand.productCount).sum = tC2.nRows ∧
    List.Pairwise (fun a b : PriceBand => a.priceMax < b.priceMin)
      (compute_price_bands tC2 5).1 := by
  have h := c2_price_bands_amended tC2 5 (by decide) (by decide) (by decide) (by decide)
  exact ⟨h.1, h.2.1⟩

/-! ## Claim C10 -/

theorem getCol_setCol_self (t : Table) (nm : String) (v : List Cell) :
    (t.setCol nm v).getCol nm = some v := by
  show ((Table.setCol.go nm v t.cols).find? (fun p => p.1 == nm)).map (·.2) = some v
  induction t.cols with
  | nil => simp [Table.setCol.go, List.find?]
  | cons hd rest ih =>
    obtain ⟨m, w⟩ := hd
    by_cases hmn : m = nm
    · subst hmn; simp [Table.setCol.go, List.find?]
    · have hmn2 : (m == nm) = false := by simp [hmn]
      simp only [Table.setCol.go, hmn2, if_false, List.find?, hmn2]
      exact ih

theorem getCol_stepG (t : Table) (nm : String) (o : Option (List Cell))
    (g : List Cell → List Cell) (c : String) (h : c ≠ nm) :
    (stepG t nm o g).getCol c = t.getCol c := by
  cases o with
  | none => rfl
  | some col => exact getCol_setCol_ne t nm (g col) c h

theorem getCol_stepGD (t : Table) (nm : String) (o : Option (List Cell))
    (g : List Cell → List Cell) (d : Cell) (c : String) (h : c ≠ nm) :
    (stepGD t nm o g d).getCol c = t.getCol c := by
  cases o with
  | none => exact getCol_setCol_ne t nm _ c h
  | some col => exact getCol_setCol_ne t nm (g col) c h

theorem maskFilter_length : ∀ (m : List Bool) (l : List α), m.length ≤ l.length →
    (maskFilter m l).length = m.count true := by
  intro m
  induction m with
  | nil => intro l h; simp [maskFilter]
  | cons b bs ih =>
    intro l h
    cases l with
    | nil => simp at h
    | cons x xs =>
      have h2 : bs.length ≤ xs.length := by simpa using h
      cases b <;> simp [maskFilter_cons, ih xs h2, List.count_cons]

theorem maskFilter_length_le : ∀ (m : List Bool) (l : List α),
    (maskFilter m l).length ≤ m.count true := by
  intro m
  induction m with
  | nil => intro l; simp [maskFilter]
  | cons b bs ih =>
    intro l
    cases l with
    | nil => simp [maskFilter]
    | cons x xs =>
      cases b
      · simpa [maskFilter_cons, List.count_cons] using ih xs
      · simpa [maskFilter_cons, List.count_cons] using Nat.succ_le_succ (ih xs)

theorem nRows_filterMask_le (t : Table) (m : List Bool) :
    (t.filterMask m).nRows ≤ m.count true := by
  rcases t with ⟨cols⟩
  cases cols with
  | nil => simp [Table.filterMask, Table.nRows]
  | cons p rest =>
    simpa [Table.filterMask, Table.nRows] using maskFilter_length_le m p.2

theorem getD_mem_of_lt {l : List α} {i : Nat} (h : i < l.length) (d : α) :
    l.getD i d ∈ l := by
  induction l generalizing i with
  | nil => simp at h
  | cons x xs ih =>
    cases i with
    | zero => simp [List.getD]
    | succ j =>
      have hj : j < xs.length := by simpa using h
      simpa [List.getD] using Or.inr (ih hj)

theorem lowLookup_aux (key : String) :
    ∀ (names : List String) (acc : Option String) (c : String),
      names.foldl (fun a cc => if lowerStr cc == key then some cc else a) acc = some c →
      acc = some c ∨ c ∈ names := by
  intro names
  induction names with
  | nil => intro acc c h; exact Or.inl h
  | cons n rest ih =>
    intro acc c h
    simp only [List.foldl] at h
    rcases ih _ c h with h2 | h2
    · by_cases hn : (lowerStr n == key) = true
      · rw [if_pos hn] at h2
        exact Or.inr (by rw [← Option.some.inj h2]; exact List.mem_cons_self n rest)
      · rw [if_neg hn] at h2
        exact Or.inl h2
    · exact Or.inr (List.mem_cons_of_mem n h2)

theorem lowLookup_mem {t : Table} {key c : String} (h : lowLookup t key = some c) :
    t.hasCol c = true := by
  unfold lowLookup at h
  rcases lowLookup_aux key _ none c h with h2 | h2
  · exact absurd h2 (by simp)
  · obtain ⟨p, hp, hpc⟩ := List.mem_map.mp h2
    unfold Table.hasCol
    rw [List.any_eq_true]
    exact ⟨p, hp, by simp [hpc]⟩

theorem detectColsCI_hasCol {patterns : List (String × List String)} {df : Table}
    {f c : String} (h : lookupF (detectColsCI patterns df) f = some c) :
    df.hasCol c = true := by
  unfold lookupF at h
  cases hf : (detectColsCI patterns df).find? (fun p => p.1 == f) with
  | none => rw [hf] at h; simp at h
  | some q =>
    rw [hf] at h
    have hq : q ∈ detectColsCI patterns df := List.mem_of_find?_eq_some hf
    have hqc : q.2 = c := by simpa using h
    unfold detectColsCI at hq
    obtain ⟨p, hp, hpq⟩ := List.mem_filterMap.mp hq
    cases hs : p.2.findSome? (lowLookup df) with
    | none => rw [hs] at hpq; simp at hpq
    | some c0 =>
      rw [hs] at hpq
      simp only [Option.map, Option.some.injEq] at hpq
      have hc0 : c0 = c := by rw [← hqc, ← hpq]
      obtain ⟨a, ha, hla⟩ := List.exists_of_findSome?_eq_some hs
      exact hc0 ▸ lowLookup_mem hla

theorem getCol_length_of_hasCol {df : Table} {c : String}
    (hwf : ∀ p ∈ df.cols, p.2.length = df.nRows) (h : df.hasCol c = true) :
    (df.colD c).length = df.nRows := by
  unfold Table.hasCol at h
  rw [List.any_eq_true] at h
  obtain ⟨p, hp, hpc⟩ := h
  cases hf : df.cols.find? (fun q => q.1 == c) with
  | none =>
    exact absurd hpc (by simpa using List.find?_eq_none.mp hf p hp)
  | some q =>
    have hq := List.mem_of_find?_eq_some hf
    have hcd : df.colD c = q.2 := by simp [Table.colD, Table.getCol, hf]
    rw [hcd]
    exact hwf q hq

theorem stepG_none (t : Table) (nm : String) (g : List Cell → List Cell) :
    stepG t nm none g = t := rfl

theorem stepG_some (t : Table) (nm : String) (col : List Cell)
    (g : List Cell → List Cell) : stepG t nm (some col) g = t.setCol nm (g col) := rfl

theorem stepGD_none (t : Table) (nm : String) (g : List Cell → List Cell) (d : Cell) :
    stepGD t nm none g d = t.setColScalar nm d := rfl

theorem stepGD_some (t : Table) (nm : String) (col : List Cell)
    (g : List Cell → List Cell) (d : Cell) :
    stepGD t nm (some col) g d = t.setCol nm (g col) := rfl

theorem reviewCore_getCol_text (df : Table) (textCol : List Cell) :
    (reviewCore df textCol).getCol "text" =
      some (textCol.map (fun (c : Cell) => Cell.s (clean_review_text c.pyStr))) := by
  simp [reviewCore, Table.setColScalar, getCol_stepG, getCol_stepGD, getCol_setCol_ne,
    getCol_setCol_self]

theorem reviewCore_getCol_rating (df : Table) (textCol : List Cell)
    (hwf : ∀ p ∈ df.cols, p.2.length = df.nRows)
    (htl : textCol.length = df.nRows)
    (hnr : lookupF (detect_amazon_review_columns df) "rating" = none) :
    (reviewCore df textCol).getCol "rating" =
      some (List.replicate df.nRows (Cell.n 0)) := by
  unfold reviewCore
  simp only [hnr, Option.map_none', stepGD_none]
  cases ho1 : lookupF (detect_amazon_review_columns df) "product_id" with
  | none =>
    simp only [Option.map_none', stepG_none]
    have htB : ((⟨[]⟩ : Table).setCol "text"
        (textCol.map (fun (c : Cell) => Cell.s (clean_review_text c.pyStr)))).nRows =
        df.nRows := by
      simp [Table.setCol, Table.setCol.go, Table.nRows, htl]
    simp [Table.setColScalar, getCol_stepG, getCol_stepGD, getCol_setCol_ne,
      getCol_setCol_self, htB]
  | some c1 =>
    simp only [Option.map_some', stepG_some]
    have hc1 : (df.colD c1).length = df.nRows :=
      getCol_length_of_hasCol hwf (detectColsCI_hasCol ho1)
    have htB : (((⟨[]⟩ : Table).setCol "product_id"
        ((df.colD c1).map (fun (c : Cell) => Cell.s c.pyStr))).setCol "text"
        (textCol.map (fun (c : Cell) => Cell.s (clean_review_text c.pyStr)))).nRows =
        df.nRows := by
      simp [Table.setCol, Table.setCol.go, Table.nRows, hc1]
    simp [Table.setColScalar, getCol_stepG, getCol_stepGD, getCol_setCol_ne,
      getCol_setCol_self, htB]

/-- C10: when the uploaded reviews table (with equal-length columns) has a
resolvable text column but no resolvable rating column,
`process_amazon_reviews` succeeds and broadcasts the numeric default `0`
into every cell of the `rating` column; consequently every normalized row
counts as negative (`rating <= 2`), none as positive (`rating >= 4`), and
`extract_must_have_factors` returns the empty list on the result. -/
theorem c10_missing_rating_defaults (df : Table)
    (hwf : ∀ p ∈ df.cols, p.2.length = df.nRows)
    (hnr : lookupF (detect_amazon_review_columns df) "rating" = none) :
    ∀ t, process_amazon_reviews df = .ok t →
      (∀ c ∈ t.colD "rating", c = Cell.n 0) ∧
      extract_must_have_factors t = [] ∧
      negativeRows t = t.rowsL := by
  intro t ht
  unfold process_amazon_reviews at ht
  cases htext : lookupF (detect_amazon_review_columns df) "text" with
  | none => rw [htext] at ht; simp [Option.map] at ht
  | some tc =>
    rw [htext] at ht
    simp only [Option.map, Except.ok.injEq] at ht
    subst ht
    set xc := df.colD tc with hxc
    have htcl : xc.length = df.nRows := by
      rw [hxc]
      exact getCol_length_of_hasCol hwf (detectColsCI_hasCol htext)
    have hrg : (reviewCore df xc).getCol "rating" =
        some (List.replicate df.nRows (Cell.n 0)) :=
      reviewCore_getCol_rating df xc hwf htcl hnr
    have htg := reviewCore_getCol_text df xc
    set M := ((reviewCore df xc).colD "text").map
      (fun c => decide (10 ≤ (strD c).length)) with hMdef
    have hMlen : M.length = df.nRows := by
      have hcd : (reviewCore df xc).colD "text" =
          xc.map (fun (c : Cell) => Cell.s (clean_review_text c.pyStr)) := by
        simp [Table.colD, htg]
      rw [hMdef, List.length_map, hcd, List.length_map, htcl]
    have hratg : (reviewBuild df xc).getCol "rating" =
        some (maskFilter M (List.replicate df.nRows (Cell.n 0))) := by
      unfold reviewBuild
      simp only [getCol_filterMask, hrg, Option.map, ← hMdef]
    have hratD : (reviewBuild df xc).colD "rating" =
        maskFilter M (List.replicate df.nRows (Cell.n 0)) := by
      simp [Table.colD, hratg]
    have hratlen : ((reviewBuild df xc).colD "rating").length = M.count true := by
      rw [hratD]
      exact maskFilter_length M _ (by simp [hMlen])
    have hnr2 : (reviewBuild df xc).nRows ≤ M.count true :=
      nRows_filterMask_le (reviewCore df xc) M
    have hrow : ∀ i, i < (reviewBuild df xc).nRows →
        rowGetD ((reviewBuild df xc).row i) "rating" Cell.na = Cell.n 0 := by
      intro i hi
      have hilt : i < ((reviewBuild df xc).colD "rating").length := by
        rw [hratlen]; exact lt_of_lt_of_le hi hnr2
      have hmem := getD_mem_of_lt hilt Cell.na
      rw [hratD] at hmem
      have hval : (maskFilter M (List.replicate df.nRows (Cell.n 0))).getD i Cell.na =
          Cell.n 0 := by
        exact List.eq_of_mem_replicate (mem_maskFilter hmem)
      unfold rowGetD
      rw [rowGet_row, hratg]
      simpa [Option.map, Option.getD] using hval
    refine ⟨?_, ?_, ?_⟩
    · intro c hc
      rw [hratD] at hc
      exact List.eq_of_mem_replicate (mem_maskFilter hc)
    · have hpos : positiveRows (reviewBuild df xc) = [] := by
        unfold positiveRows
        rw [List.filter_eq_nil_iff]
        intro r hr
        unfold Table.rowsL at hr
        obtain ⟨i, hi, rfl⟩ := List.mem_map.mp hr
        have hi2 := List.mem_range.mp hi
        simp [hrow i hi2, Cell.asNum]
      simp [extract_must_have_factors, hpos]
    · unfold negativeRows
      apply List.filter_eq_self.mpr
      intro r hr
      unfold Table.rowsL at hr
      obtain ⟨i, hi, rfl⟩ := List.mem_map.mp hr
      have hi2 := List.mem_range.mp hi
      simp [hrow i hi2, Cell.asNum]

/-- C10 witness: `dfC10` has only a `body` column (so `rating` is
unresolved), and the theorem applies to its normalized form `tC10`. -/
theorem c10_missing_rating_defaults_witness :
    (∀ p ∈ dfC10.cols, p.2.length = dfC10.nRows) ∧
    lookupF (detect_amazon_review_columns dfC10) "rating" = none ∧
    ((∀ c ∈ tC10.colD "rating", c = Cell.n 0) ∧
      extract_must_have_factors tC10 = [] ∧
      negativeRows tC10 = tC10.rowsL) :=
  ⟨by decide, by decide,
    c10_missing_rating_defaults dfC10 (by decide) (by decide) tC10 (by rfl)⟩

end AutoReport
